import Mathlib

/-!
Shallow embedding of the UCP stream engine from `src/ucp.rs`.

The packet buffer is modelled as a function `Nat → Nat` holding byte values;
all reads go through `byteAt`, which truncates to a `u8`.  The `u32` header
fields of `UcpPacket` are modelled as `Nat` with explicit `% 2^32` wherever the
Rust code relies on wrapping arithmetic, and the signed wrap-safe comparison
`(a - b) as i32` is modelled by `sdiff`.
-/

namespace Ucp

def CMD_SYN : Nat := 128
def CMD_SYN_ACK : Nat := 129
def CMD_ACK : Nat := 130
def CMD_DATA : Nat := 131
def CMD_HEARTBEAT : Nat := 132
def CMD_HEARTBEAT_ACK : Nat := 133
def UCP_PACKET_META_SIZE : Nat := 29
def DEFAULT_WINDOW : Nat := 512
def DEFAULT_RTO : Nat := 100
def HEARTBEAT_INTERVAL_MILLIS : Int := 2500
def UCP_STREAM_BROKEN_MILLIS : Int := 20000
def SKIP_RESEND_TIMES : Nat := 2

/-- Reading one byte of the buffer: the buffer holds `u8` values. -/
def byteAt (buf : Nat → Nat) (i : Nat) : Nat := buf i % 256

/-- `UcpPacket::write_u8`. -/
def write_u8 (buf : Nat → Nat) (off u : Nat) : Nat → Nat :=
  fun i => if i = off then u % 256 else buf i

/-- `UcpPacket::write_u32`: stores `u.to_be()`, i.e. the four bytes of `u`
in big-endian order at `off`. -/
def write_u32 (buf : Nat → Nat) (off u : Nat) : Nat → Nat :=
  fun i =>
    if i = off then u / 2^24 % 256
    else if i = off + 1 then u / 2^16 % 256
    else if i = off + 2 then u / 2^8 % 256
    else if i = off + 3 then u % 256
    else buf i

/-- `UcpPacket::parse_u32`: reads four bytes at `off` as a big-endian `u32`. -/
def parse_u32 (buf : Nat → Nat) (off : Nat) : Nat :=
  byteAt buf off * 2^24 + byteAt buf (off + 1) * 2^16 +
    byteAt buf (off + 2) * 2^8 + byteAt buf (off + 3)

/-- The byte slice `buf[a..b]`. -/
def bytesRange (buf : Nat → Nat) (a b : Nat) : List Nat :=
  (List.range (b - a)).map (fun k => byteAt buf (a + k))

/-- One shift-and-conditionally-xor step of the reflected CRC-32 algorithm
(polynomial `0xEDB88320`). -/
def crc32_step (c : Nat) : Nat :=
  if c % 2 = 1 then Nat.xor (c / 2) 0xEDB88320 else c / 2

/-- Folding one input byte into the CRC state. -/
def crc32_byte (c b : Nat) : Nat :=
  Nat.iterate crc32_step 8 (Nat.xor c (b % 256))

/-- `crc32::checksum_ieee`: reflected CRC-32/IEEE with init and xor-out
`0xFFFFFFFF`. -/
def checksum_ieee (bs : List Nat) : Nat :=
  Nat.xor (bs.foldl crc32_byte 0xFFFFFFFF) 0xFFFFFFFF

/-- `a.wrapping_sub b` on `u32` (release-mode semantics of `a - b`). -/
def u32sub (a b : Nat) : Nat :=
  (a % 2^32 + 2^32 - b % 2^32) % 2^32

/-- `(a - b) as i32`: the wrap-safe signed difference used by all sequence
comparisons in the source. -/
def sdiff (a b : Nat) : Int :=
  if u32sub a b < 2^31 then (u32sub a b : Int) else (u32sub a b : Int) - 2^32

/-- `a` strictly precedes `b` in the wrap-safe sequence order. -/
def seqLt (a b : Nat) : Prop := sdiff a b < 0

instance : DecidablePred (fun p : Nat × Nat => seqLt p.1 p.2) :=
  fun p => by unfold seqLt; infer_instance

instance (a b : Nat) : Decidable (seqLt a b) := by unfold seqLt; infer_instance

/-- `struct UcpPacket`. -/
structure UcpPacket where
  buf : Nat → Nat
  size : Nat
  payload : Nat
  read_pos : Nat
  skip_times : Nat
  session_id : Nat
  timestamp : Nat
  window : Nat
  xmit : Nat
  una : Nat
  seq : Nat
  cmd : Nat

/-- `UcpPacket::new`. -/
def UcpPacket.new : UcpPacket where
  buf := fun _ => 0
  size := 0
  payload := 0
  read_pos := 0
  skip_times := 0
  session_id := 0
  timestamp := 0
  window := 0
  xmit := 0
  una := 0
  seq := 0
  cmd := 0

namespace UcpPacket

/-- `UcpPacket::is_crc32_correct`. -/
def is_crc32_correct (p : UcpPacket) : Bool :=
  checksum_ieee (bytesRange p.buf 4 p.size) == parse_u32 p.buf 0

/-- `UcpPacket::is_legal`. -/
def is_legal (p : UcpPacket) : Bool :=
  decide (UCP_PACKET_META_SIZE ≤ p.size) && p.is_crc32_correct

/-- `UcpPacket::parse`: returns the mutated packet together with the boolean
result. -/
def parse (p : UcpPacket) : UcpPacket × Bool :=
  if ¬ p.is_legal then (p, false)
  else
    let p1 := { p with
      payload := (p.size - UCP_PACKET_META_SIZE) % 2^16
      read_pos := UCP_PACKET_META_SIZE
      session_id := parse_u32 p.buf 4
      timestamp := parse_u32 p.buf 8
      window := parse_u32 p.buf 12
      xmit := parse_u32 p.buf 16
      una := parse_u32 p.buf 20
      seq := parse_u32 p.buf 24
      cmd := byteAt p.buf 28 }
    (p1, decide (CMD_SYN ≤ p1.cmd) && decide (p1.cmd ≤ CMD_HEARTBEAT_ACK))

/-- The buffer state inside `UcpPacket::pack` after the seven sequential
header writes (offsets 4, 8, 12, 16, 20, 24 and the `cmd` byte at 28),
before the CRC is computed. -/
def packHeaderBuf (p : UcpPacket) : Nat → Nat :=
  write_u8 (write_u32 (write_u32 (write_u32 (write_u32 (write_u32
    (write_u32 p.buf 4 p.session_id) 8 p.timestamp) 12 p.window)
    16 p.xmit) 20 p.una) 24 p.seq) 28 p.cmd

/-- `UcpPacket::pack`: serialize the header, set `size = payload + 29`, and
write the CRC-32/IEEE of bytes `[4..size]` into bytes `[0..4]`. -/
def pack (p : UcpPacket) : UcpPacket :=
  let size := p.payload + UCP_PACKET_META_SIZE
  let digest := checksum_ieee (bytesRange p.packHeaderBuf 4 size)
  { p with buf := write_u32 p.packHeaderBuf 0 digest, size := size }

/-- `UcpPacket::remaining_load`. -/
def remaining_load (p : UcpPacket) : Nat :=
  1400 - p.payload - UCP_PACKET_META_SIZE

/-- `UcpPacket::payload_offset`. -/
def payload_offset (p : UcpPacket) : Nat :=
  p.payload + UCP_PACKET_META_SIZE

/-- `copy_from_slice` into `buf[off .. off + bs.length]`. -/
def writeBytes (buf : Nat → Nat) (off : Nat) (bs : List Nat) : Nat → Nat :=
  fun i => if off ≤ i ∧ i < off + bs.length then bs.getD (i - off) 0 else buf i

/-- `UcpPacket::payload_write_slice`. -/
def payload_write_slice (p : UcpPacket) (bs : List Nat) : UcpPacket × Bool :=
  if bs.length ≤ p.remaining_load then
    ({ p with
        buf := writeBytes p.buf p.payload_offset bs
        payload := (p.payload + bs.length) % 2^16 }, true)
  else (p, false)

/-- `UcpPacket::payload_write_u32`. -/
def payload_write_u32 (p : UcpPacket) (u : Nat) : UcpPacket × Bool :=
  if 4 ≤ p.remaining_load then
    ({ p with
        buf := write_u32 p.buf p.payload_offset u
        payload := (p.payload + 4) % 2^16 }, true)
  else (p, false)

/-- `UcpPacket::payload_remaining`. -/
def payload_remaining (p : UcpPacket) : Nat :=
  p.size - p.read_pos

/-- `UcpPacket::payload_read_slice` into a buffer of capacity `cap`; returns
the mutated packet and the bytes that were copied out. -/
def payload_read_slice (p : UcpPacket) (cap : Nat) : UcpPacket × List Nat :=
  let n := min p.payload_remaining cap
  ({ p with read_pos := p.read_pos + n },
   (List.range n).map (fun k => byteAt p.buf (p.read_pos + k)))

/-- The current payload contents: bytes `[29 .. 29 + payload]` of the buffer. -/
def payloadBytes (p : UcpPacket) : List Nat :=
  (List.range p.payload).map (fun k => byteAt p.buf (UCP_PACKET_META_SIZE + k))

end UcpPacket

/-- `struct UcpStream`: the fields read or written by the modelled
operations.  `socket`, `remote_addr` and the connection-state enum belong to
the I/O seam; the two callbacks are passed to `update` as `Option` parameters
(`None` = never installed), and wall-clock reads (`get_time`,
`UcpStream::timestamp`) become explicit `nowT` (ms, `Timespec` difference)
and `now` (ms, `u32`) arguments. -/
structure UcpStream where
  alive_time : Int
  heartbeat : Int
  send_queue : List UcpPacket
  recv_queue : List UcpPacket
  send_buffer : List UcpPacket
  ack_list : List (Nat × Nat)
  session_id : Nat
  local_window : Nat
  remote_window : Nat
  seq : Nat
  una : Nat
  rto : Nat

namespace UcpStream

/-- `UcpStream::next_seq`: `fetch_add(1) + 1` with `u32` wrap-around. -/
def next_seq (st : UcpStream) : Nat × UcpStream :=
  ((st.seq + 1) % 2^32, { st with seq := (st.seq + 1) % 2^32 })

/-- `UcpStream::new_packet`. -/
def new_packet (st : UcpStream) (now cmd : Nat) : UcpPacket × UcpStream :=
  let r := st.next_seq
  ({ UcpPacket.new with
      session_id := st.session_id
      timestamp := now
      window := st.local_window
      seq := r.1
      una := st.una
      cmd := cmd }, r.2)

/-- `UcpStream::new_noseq_packet`: like `new_packet` but `seq` stays `0`. -/
def new_noseq_packet (st : UcpStream) (now cmd : Nat) : UcpPacket :=
  { UcpPacket.new with
      session_id := st.session_id
      timestamp := now
      window := st.local_window
      una := st.una
      cmd := cmd }

/-- `UcpStream::is_send_buffer_overflow`. -/
def is_send_buffer_overflow (st : UcpStream) : Bool :=
  decide (st.remote_window ≤ st.send_buffer.length)

/-- `UcpStream::make_packet_send`: chunk the remaining bytes into fresh
`CMD_DATA` packets pushed onto `send_buffer`. -/
def make_packet_send (now : Nat) (st : UcpStream) (bs : List Nat) : UcpStream :=
  if bs.length = 0 then st
  else
    let r := st.new_packet now CMD_DATA
    let size := min r.1.remaining_load bs.length
    let p1 := (r.1.payload_write_slice (bs.take size)).1
    make_packet_send now { r.2 with send_buffer := r.2.send_buffer ++ [p1] } (bs.drop size)
termination_by bs.length
decreasing_by
  rename_i h
  have hr : (st.new_packet now CMD_DATA).1.remaining_load = 1371 := rfl
  simp only [List.length_drop]
  omega

/-- `UcpStream::send`: fill the tail packet of `send_buffer` first, then chunk
the remainder via `make_packet_send`. -/
def send (now : Nat) (st : UcpStream) (bs : List Nat) : UcpStream :=
  match st.send_buffer.getLast? with
  | none => if 0 < bs.length then make_packet_send now st bs else st
  | some p =>
    let remain := min p.remaining_load bs.length
    let p' := if 0 < remain then (p.payload_write_slice (bs.take remain)).1 else p
    let st1 := { st with send_buffer := st.send_buffer.dropLast ++ [p'] }
    if remain < bs.length then make_packet_send now st1 (bs.drop remain) else st1

/-- The loop body of `UcpStream::recv`: drain deliverable packets from the
front of `recv_queue` into a buffer with `cap` bytes of room. -/
def recv_loop (una cap : Nat) (q : List UcpPacket) (acc : List Nat) :
    List UcpPacket × List Nat :=
  match q with
  | [] => ([], acc)
  | p :: rest =>
    if acc.length < cap then
      if 0 ≤ sdiff p.seq una then (p :: rest, acc)
      else
        let r := p.payload_read_slice (cap - acc.length)
        if r.1.payload_remaining = 0 then recv_loop una cap rest (acc ++ r.2)
        else recv_loop una cap (r.1 :: rest) (acc ++ r.2)
    else (p :: rest, acc)
termination_by (cap - acc.length) + q.length
decreasing_by
  all_goals
    rename_i _hcap hrem
    simp only [r, UcpPacket.payload_read_slice, UcpPacket.payload_remaining] at hrem
    simp only [UcpPacket.payload_read_slice, UcpPacket.payload_remaining,
      List.length_append, List.length_map, List.length_range, List.length_cons]
    rcases Nat.le_total (p.size - p.read_pos) (cap - acc.length) with hle | hle
    · simp only [Nat.min_eq_left hle] at hrem ⊢; omega
    · simp only [Nat.min_eq_right hle] at hrem ⊢; omega

/-- `UcpStream::recv`. -/
def recv (st : UcpStream) (cap : Nat) : UcpStream × List Nat :=
  let r := recv_loop st.una cap st.recv_queue []
  ({ st with recv_queue := r.1 }, r.2)

/-- `l.insert(n, x)` on a `VecDeque`. -/
def insertAt {α : Type} (n : Nat) (x : α) (l : List α) : List α :=
  l.take n ++ x :: l.drop n

/-- The scan loop of `UcpStream::process_data`: `none` models the early
`return` on an exact-seq duplicate, `some pos` the insertion position. -/
def scan_pos (s : Nat) : List UcpPacket → Option Nat
  | [] => some 0
  | q :: rest =>
    if sdiff s q.seq = 0 then none
    else if sdiff s q.seq < 0 then some 0
    else (scan_pos s rest).map (· + 1)

/-- The una-advance loop of `UcpStream::process_data`: starting from the
insertion position, bump `una` once per member matching it exactly. -/
def advance_una (una : Nat) : List UcpPacket → Nat
  | [] => una
  | q :: rest => if q.seq = una then advance_una ((una + 1) % 2^32) rest else una

/-- `UcpStream::process_data`. -/
def process_data (st : UcpStream) (p : UcpPacket) : UcpStream :=
  let st1 := { st with ack_list := st.ack_list ++ [(p.seq, p.timestamp)] }
  if sdiff p.seq st.una < 0 then st1
  else
    match scan_pos p.seq st.recv_queue with
    | none => st1
    | some pos =>
      let q' := insertAt pos p st.recv_queue
      { st1 with recv_queue := q', una := advance_una st.una (q'.drop pos) }

/-- The pop-front loop of `UcpStream::process_una`. -/
def una_drop (una : Nat) : List UcpPacket → List UcpPacket
  | [] => []
  | p :: rest => if sdiff p.seq una < 0 then una_drop una rest else p :: rest

/-- `UcpStream::process_una`. -/
def process_una (st : UcpStream) (una : Nat) : UcpStream :=
  { st with send_queue := una_drop una st.send_queue }

/-- The scan loop of `UcpStream::process_an_ack`: remove the first packet with
a matching `seq`; packets scanned before it whose `timestamp ≤ ts` get their
`skip_times` bumped. -/
def paa_scan (s ts : Nat) : List UcpPacket → List UcpPacket × Bool
  | [] => ([], false)
  | p :: rest =>
    if p.seq = s then (rest, true)
    else
      let p' := if p.timestamp ≤ ts then
        { p with skip_times := (p.skip_times + 1) % 2^32 } else p
      let r := paa_scan s ts rest
      (p' :: r.1, r.2)

/-- `UcpStream::process_an_ack`. -/
def process_an_ack (now : Nat) (st : UcpStream) (s ts : Nat) : UcpStream × Bool :=
  let rtt := u32sub now ts
  let rto1 := (st.rto + rtt) % 2^32 / 2
  let r := paa_scan s ts st.send_queue
  ({ st with rto := rto1, send_queue := r.1 }, r.2)

/-- The scan loop of `UcpStream::timeout_resend`. -/
def tr_loop (now una lw rto : Nat) : List UcpPacket → List UcpPacket × List UcpPacket
  | [] => ([], [])
  | p :: rest =>
    let r := tr_loop now una lw rto rest
    if rto ≤ u32sub now p.timestamp ∨ SKIP_RESEND_TIMES ≤ p.skip_times then
      let p' := UcpPacket.pack { p with
        skip_times := 0, window := lw, una := una, timestamp := now,
        xmit := (p.xmit + 1) % 2^32 }
      (p' :: r.1, p' :: r.2)
    else (p :: r.1, r.2)

/-- `UcpStream::timeout_resend`; the second component lists the emissions. -/
def timeout_resend (now : Nat) (st : UcpStream) : UcpStream × List UcpPacket :=
  let r := tr_loop now st.una st.local_window st.rto st.send_queue
  ({ st with send_queue := r.1 }, r.2)

/-- The window gate of `UcpStream::send_pending_packets`. -/
def sp_blocked (window : Nat) (sq : List UcpPacket) (p : UcpPacket) : Bool :=
  match sq.head? with
  | some q => decide (window ≤ u32sub p.seq q.seq)
  | none => false

/-- The move loop of `UcpStream::send_pending_packets`. -/
def sp_loop (now una lw window : Nat) (sq sb em : List UcpPacket) :
    List UcpPacket × List UcpPacket × List UcpPacket :=
  if sq.length < window then
    match sb with
    | [] => (sq, [], em)
    | p :: rest =>
      if sp_blocked window sq p then (sq, p :: rest, em)
      else
        let p' := UcpPacket.pack { p with window := lw, una := una, timestamp := now }
        sp_loop now una lw window (sq ++ [p']) rest (em ++ [p'])
  else (sq, sb, em)

/-- `UcpStream::send_pending_packets`. -/
def send_pending_packets (now : Nat) (st : UcpStream) : UcpStream × List UcpPacket :=
  let r := sp_loop now st.una st.local_window st.remote_window
    st.send_queue st.send_buffer []
  ({ st with send_queue := r.1, send_buffer := r.2.1 }, r.2.2)

/-- `UcpStream::do_heartbeat`. -/
def do_heartbeat (nowT : Int) (now : Nat) (st : UcpStream) : UcpStream × List UcpPacket :=
  if HEARTBEAT_INTERVAL_MILLIS ≤ nowT - st.heartbeat then
    ({ st with heartbeat := nowT },
     [UcpPacket.pack (st.new_noseq_packet now CMD_HEARTBEAT)])
  else (st, [])

/-- The ack-packing loop of `UcpStream::send_ack_list`: flush the current
packet when fewer than 8 payload bytes remain, then write the pair. -/
def sal_loop (st : UcpStream) (now : Nat) (acks : List (Nat × Nat))
    (cur : UcpPacket) (em : List UcpPacket) : UcpPacket × List UcpPacket :=
  match acks with
  | [] => (cur, em)
  | a :: rest =>
    if cur.remaining_load < 8 then
      let fresh := st.new_noseq_packet now CMD_ACK
      let c1 := ((fresh.payload_write_u32 a.1).1.payload_write_u32 a.2).1
      sal_loop st now rest c1 (em ++ [UcpPacket.pack cur])
    else
      let c1 := ((cur.payload_write_u32 a.1).1.payload_write_u32 a.2).1
      sal_loop st now rest c1 em

/-- `UcpStream::send_ack_list`: `ack_list.take()` always clears the list; if
it was non-empty, the final packet is emitted unconditionally. -/
def send_ack_list (now : Nat) (st : UcpStream) : UcpStream × List UcpPacket :=
  let acks := st.ack_list
  let st1 := { st with ack_list := [] }
  if acks.isEmpty then (st1, [])
  else
    let r := sal_loop st now acks (st.new_noseq_packet now CMD_ACK) []
    (st1, r.2 ++ [UcpPacket.pack r.1])

/-- `UcpStream::check_if_alive`: `none` models the panic of unwrapping a
missing `on_broken`; otherwise returns the flag together with how often
`on_broken` was invoked. -/
def check_if_alive (nowT : Int) (onBroken : Option Unit) (st : UcpStream) :
    Option (Bool × Nat) :=
  let alive := nowT - st.alive_time < UCP_STREAM_BROKEN_MILLIS
  if alive then some (true, 0)
  else
    match onBroken with
    | none => none
    | some _ => some (false, 1)

/-- `UcpStream::update`: `none` models a panic (a `None` callback was
unwrapped); otherwise the result carries the new state, the returned flag,
the emissions in order, and the number of `on_broken` invocations.
`onUpdate` is the boolean the installed `on_update` callback would return. -/
def update (nowT : Int) (now : Nat) (onUpdate : Option Bool) (onBroken : Option Unit)
    (st : UcpStream) : Option (UcpStream × Bool × List UcpPacket × Nat) :=
  match check_if_alive nowT onBroken st with
  | none => none
  | some ak =>
    if ak.1 then
      let r1 := do_heartbeat nowT now st
      let r2 := send_ack_list now r1.1
      let r3 := timeout_resend now r2.1
      let r4 := send_pending_packets now r3.1
      match onUpdate with
      | none => none
      | some b => some (r4.1, b, r1.2 ++ r2.2 ++ r3.2 ++ r4.2, ak.2)
    else some (st, false, [], ak.2)

end UcpStream

/-- A concrete established stream state used to instantiate the theorems:
the server side right after accepting a client whose SYN carried `seq = 1`
(so `una = 2`), with nothing in flight. -/
def exampleStream : UcpStream where
  alive_time := 0
  heartbeat := 0
  send_queue := []
  recv_queue := []
  send_buffer := []
  ack_list := []
  session_id := 1
  local_window := 512
  remote_window := 512
  seq := 0
  una := 2
  rto := 100

/-- A concrete inbound DATA packet with `seq = 2` and sender timestamp 7. -/
def exampleData : UcpPacket :=
  { UcpPacket.new with seq := 2, timestamp := 7, cmd := 131 }

/-- A concrete staged outbound DATA packet with `seq = 1`, never yet emitted. -/
def examplePkt1 : UcpPacket := { UcpPacket.new with seq := 1, cmd := 131 }

/-- A concrete staged outbound DATA packet with `seq = 2`, never yet emitted. -/
def examplePkt2 : UcpPacket := { UcpPacket.new with seq := 2, cmd := 131 }

/-- `exampleStream` with one DATA packet staged in `send_buffer`. -/
def exampleStaged : UcpStream :=
  { exampleStream with send_buffer := [examplePkt1], seq := 1 }

/-- `exampleStream` with two packets already in flight but a peer window that
has shrunk to 1 (as set by an inbound packet's `window` field). -/
def exampleShrunkWindow : UcpStream :=
  { exampleStream with send_queue := [examplePkt1, examplePkt2], remote_window := 1, seq := 2 }

/-- `exampleStream` with two packets in flight awaiting acknowledgement. -/
def exampleAcked : UcpStream :=
  { exampleStream with send_queue := [examplePkt1, examplePkt2], seq := 2 }

/-- A staged SYN packet (as `connecting` leaves in `send_buffer`). -/
def exampleSyn : UcpPacket := { UcpPacket.new with seq := 1, cmd := 128 }

/-- A stream whose `send_buffer` still holds the handshake SYN when the
application calls `send`. -/
def exampleSynStaged : UcpStream :=
  { exampleStream with send_buffer := [exampleSyn], seq := 1 }

/-! ## Helper lemmas about the byte-level codec -/

theorem byteAt_lt (buf : Nat → Nat) (i : Nat) : byteAt buf i < 256 :=
  Nat.mod_lt _ (by omega)

theorem byteAt_write_u8_of_ne (buf : Nat → Nat) (off u i : Nat) (h : i ≠ off) :
    byteAt (write_u8 buf off u) i = byteAt buf i := by
  simp [byteAt, write_u8, h]

theorem byteAt_write_u32_of_disjoint (buf : Nat → Nat) (off u i : Nat)
    (h : i < off ∨ off + 4 ≤ i) :
    byteAt (write_u32 buf off u) i = byteAt buf i := by
  have h1 : i ≠ off := by omega
  have h2 : i ≠ off + 1 := by omega
  have h3 : i ≠ off + 2 := by omega
  have h4 : i ≠ off + 3 := by omega
  simp [byteAt, write_u32, h1, h2, h3, h4]

theorem byteAt_writeBytes_of_disjoint (buf : Nat → Nat) (off : Nat) (bs : List Nat)
    (i : Nat) (h : i < off ∨ off + bs.length ≤ i) :
    byteAt (UcpPacket.writeBytes buf off bs) i = byteAt buf i := by
  have : ¬ (off ≤ i ∧ i < off + bs.length) := by omega
  simp [byteAt, UcpPacket.writeBytes, this]

theorem byteAt_writeBytes_of_mem (buf : Nat → Nat) (off : Nat) (bs : List Nat)
    (i : Nat) (h1 : off ≤ i) (h2 : i < off + bs.length) :
    byteAt (UcpPacket.writeBytes buf off bs) i = bs.getD (i - off) 0 % 256 := by
  simp [byteAt, UcpPacket.writeBytes, h1, h2]

theorem parse_u32_write_u32_self (buf : Nat → Nat) (off u : Nat) :
    parse_u32 (write_u32 buf off u) off = u % 2^32 := by
  have h1 : off + 1 ≠ off := by omega
  have h2 : off + 2 ≠ off := by omega
  have h3 : off + 2 ≠ off + 1 := by omega
  have h4 : off + 3 ≠ off := by omega
  have h5 : off + 3 ≠ off + 1 := by omega
  have h6 : off + 3 ≠ off + 2 := by omega
  simp [parse_u32, byteAt, write_u32, h1, h2, h3, h4, h5, h6]
  omega

theorem parse_u32_write_u32_of_disjoint (buf : Nat → Nat) (off u i : Nat)
    (h : i + 4 ≤ off ∨ off + 4 ≤ i) :
    parse_u32 (write_u32 buf off u) i = parse_u32 buf i := by
  unfold parse_u32
  rw [byteAt_write_u32_of_disjoint buf off u i (by omega),
    byteAt_write_u32_of_disjoint buf off u (i + 1) (by omega),
    byteAt_write_u32_of_disjoint buf off u (i + 2) (by omega),
    byteAt_write_u32_of_disjoint buf off u (i + 3) (by omega)]

theorem parse_u32_write_u8_of_disjoint (buf : Nat → Nat) (off u i : Nat)
    (h : i + 4 ≤ off ∨ off < i) :
    parse_u32 (write_u8 buf off u) i = parse_u32 buf i := by
  unfold parse_u32
  rw [byteAt_write_u8_of_ne buf off u i (by omega),
    byteAt_write_u8_of_ne buf off u (i + 1) (by omega),
    byteAt_write_u8_of_ne buf off u (i + 2) (by omega),
    byteAt_write_u8_of_ne buf off u (i + 3) (by omega)]

theorem bytesRange_congr (buf1 buf2 : Nat → Nat) (a b : Nat)
    (h : ∀ i, a ≤ i → i < b → byteAt buf1 i = byteAt buf2 i) :
    bytesRange buf1 a b = bytesRange buf2 a b := by
  unfold bytesRange
  simp only [List.map_inj_left, List.mem_range]
  intro k hk
  exact h (a + k) (by omega) (by omega)

theorem crc32_step_lt (c : Nat) (h : c < 2^32) : crc32_step c < 2^32 := by
  unfold crc32_step
  split
  · exact Nat.xor_lt_two_pow (by omega) (by norm_num)
  · omega

theorem crc32_iterate_lt (n c : Nat) (h : c < 2^32) :
    Nat.iterate crc32_step n c < 2^32 := by
  induction n generalizing c with
  | zero => simpa using h
  | succ m ih =>
    rw [Function.iterate_succ_apply]
    exact ih _ (crc32_step_lt c h)

theorem crc32_byte_lt (c b : Nat) (h : c < 2^32) : crc32_byte c b < 2^32 :=
  crc32_iterate_lt 8 _ (Nat.xor_lt_two_pow h (by have := Nat.mod_lt b (show 0 < 256 by omega); omega))

theorem foldl_crc32_byte_lt (bs : List Nat) (c : Nat) (h : c < 2^32) :
    bs.foldl crc32_byte c < 2^32 := by
  induction bs generalizing c with
  | nil => simpa using h
  | cons x xs ih => exact ih _ (crc32_byte_lt c x h)

theorem checksum_ieee_lt (bs : List Nat) : checksum_ieee bs < 2^32 := by
  unfold checksum_ieee
  exact Nat.xor_lt_two_pow (foldl_crc32_byte_lt bs _ (by norm_num)) (by norm_num)

/-! ## Facts about `pack` -/

theorem byteAt_write_u8_self (buf : Nat → Nat) (off u : Nat) :
    byteAt (write_u8 buf off u) off = u % 256 := by
  simp [byteAt, write_u8]

theorem byteAt_packHeaderBuf_of_ge (p : UcpPacket) (i : Nat) (h : 29 ≤ i) :
    byteAt p.packHeaderBuf i = byteAt p.buf i := by
  unfold UcpPacket.packHeaderBuf
  rw [byteAt_write_u8_of_ne _ _ _ _ (by omega),
    byteAt_write_u32_of_disjoint _ _ _ _ (by omega),
    byteAt_write_u32_of_disjoint _ _ _ _ (by omega),
    byteAt_write_u32_of_disjoint _ _ _ _ (by omega),
    byteAt_write_u32_of_disjoint _ _ _ _ (by omega),
    byteAt_write_u32_of_disjoint _ _ _ _ (by omega),
    byteAt_write_u32_of_disjoint _ _ _ _ (by omega)]

theorem parse_u32_packHeaderBuf_4 (p : UcpPacket) :
    parse_u32 p.packHeaderBuf 4 = p.session_id % 2^32 := by
  unfold UcpPacket.packHeaderBuf
  rw [parse_u32_write_u8_of_disjoint _ _ _ _ (by omega),
    parse_u32_write_u32_of_disjoint _ _ _ _ (by omega),
    parse_u32_write_u32_of_disjoint _ _ _ _ (by omega),
    parse_u32_write_u32_of_disjoint _ _ _ _ (by omega),
    parse_u32_write_u32_of_disjoint _ _ _ _ (by omega),
    parse_u32_write_u32_of_disjoint _ _ _ _ (by omega),
    parse_u32_write_u32_self]

theorem parse_u32_packHeaderBuf_8 (p : UcpPacket) :
    parse_u32 p.packHeaderBuf 8 = p.timestamp % 2^32 := by
  unfold UcpPacket.packHeaderBuf
  rw [parse_u32_write_u8_of_disjoint _ _ _ _ (by omega),
    parse_u32_write_u32_of_disjoint _ _ _ _ (by omega),
    parse_u32_write_u32_of_disjoint _ _ _ _ (by omega),
    parse_u32_write_u32_of_disjoint _ _ _ _ (by omega),
    parse_u32_write_u32_of_disjoint _ _ _ _ (by omega),
    parse_u32_write_u32_self]

theorem parse_u32_packHeaderBuf_12 (p : UcpPacket) :
    parse_u32 p.packHeaderBuf 12 = p.window % 2^32 := by
  unfold UcpPacket.packHeaderBuf
  rw [parse_u32_write_u8_of_disjoint _ _ _ _ (by omega),
    parse_u32_write_u32_of_disjoint _ _ _ _ (by omega),
    parse_u32_write_u32_of_disjoint _ _ _ _ (by omega),
    parse_u32_write_u32_of_disjoint _ _ _ _ (by omega),
    parse_u32_write_u32_self]

theorem parse_u32_packHeaderBuf_16 (p : UcpPacket) :
    parse_u32 p.packHeaderBuf 16 = p.xmit % 2^32 := by
  unfold UcpPacket.packHeaderBuf
  rw [parse_u32_write_u8_of_disjoint _ _ _ _ (by omega),
    parse_u32_write_u32_of_disjoint _ _ _ _ (by omega),
    parse_u32_write_u32_of_disjoint _ _ _ _ (by omega),
    parse_u32_write_u32_self]

theorem parse_u32_packHeaderBuf_20 (p : UcpPacket) :
    parse_u32 p.packHeaderBuf 20 = p.una % 2^32 := by
  unfold UcpPacket.packHeaderBuf
  rw [parse_u32_write_u8_of_disjoint _ _ _ _ (by omega),
    parse_u32_write_u32_of_disjoint _ _ _ _ (by omega),
    parse_u32_write_u32_self]

theorem parse_u32_packHeaderBuf_24 (p : UcpPacket) :
    parse_u32 p.packHeaderBuf 24 = p.seq % 2^32 := by
  unfold UcpPacket.packHeaderBuf
  rw [parse_u32_write_u8_of_disjoint _ _ _ _ (by omega),
    parse_u32_write_u32_self]

theorem byteAt_packHeaderBuf_28 (p : UcpPacket) :
    byteAt p.packHeaderBuf 28 = p.cmd % 256 := by
  unfold UcpPacket.packHeaderBuf
  rw [byteAt_write_u8_self]

theorem pack_size (p : UcpPacket) : (p.pack).size = p.payload + 29 := rfl

theorem pack_buf (p : UcpPacket) :
    (p.pack).buf = write_u32 p.packHeaderBuf 0
      (checksum_ieee (bytesRange p.packHeaderBuf 4 (p.payload + 29))) := rfl

theorem pack_payload (p : UcpPacket) : (p.pack).payload = p.payload := rfl

theorem pack_seq (p : UcpPacket) : (p.pack).seq = p.seq := rfl

theorem pack_xmit (p : UcpPacket) : (p.pack).xmit = p.xmit := rfl

theorem bytesRange_pack_buf (p : UcpPacket) (a b : Nat) (ha : 4 ≤ a) :
    bytesRange (p.pack).buf a b = bytesRange p.packHeaderBuf a b := by
  rw [pack_buf]
  exact bytesRange_congr _ _ _ _
    (fun i h1 h2 => byteAt_write_u32_of_disjoint _ _ _ _ (by omega))

theorem pack_is_legal (p : UcpPacket) : (p.pack).is_legal = true := by
  unfold UcpPacket.is_legal UcpPacket.is_crc32_correct
  rw [pack_size, bytesRange_pack_buf p 4 (p.payload + 29) le_rfl, pack_buf,
    parse_u32_write_u32_self,
    Nat.mod_eq_of_lt (checksum_ieee_lt (bytesRange p.packHeaderBuf 4 (p.payload + 29)))]
  simp [UCP_PACKET_META_SIZE]

theorem byteAt_pack_buf_of_ge (p : UcpPacket) (i : Nat) (h : 29 ≤ i) :
    byteAt (p.pack).buf i = byteAt p.buf i := by
  rw [pack_buf, byteAt_write_u32_of_disjoint _ _ _ _ (by omega),
    byteAt_packHeaderBuf_of_ge p i h]

/-- `parse` after `pack` takes the legal branch and reads back exactly the
serialized header fields. -/
theorem parse_pack (p : UcpPacket)
    (hsid : p.session_id < 2^32) (hts : p.timestamp < 2^32) (hw : p.window < 2^32)
    (hx : p.xmit < 2^32) (hu : p.una < 2^32) (hs : p.seq < 2^32)
    (hc : p.cmd < 256) (hpl : p.payload ≤ 1371) :
    (p.pack).parse =
      ({ p.pack with
          payload := p.payload
          read_pos := 29
          session_id := p.session_id
          timestamp := p.timestamp
          window := p.window
          xmit := p.xmit
          una := p.una
          seq := p.seq
          cmd := p.cmd },
        decide (128 ≤ p.cmd) && decide (p.cmd ≤ 133)) := by
  have e4 : parse_u32 (p.pack).buf 4 = p.session_id := by
    rw [pack_buf, parse_u32_write_u32_of_disjoint _ _ _ _ (by omega),
      parse_u32_packHeaderBuf_4, Nat.mod_eq_of_lt hsid]
  have e8 : parse_u32 (p.pack).buf 8 = p.timestamp := by
    rw [pack_buf, parse_u32_write_u32_of_disjoint _ _ _ _ (by omega),
      parse_u32_packHeaderBuf_8, Nat.mod_eq_of_lt hts]
  have e12 : parse_u32 (p.pack).buf 12 = p.window := by
    rw [pack_buf, parse_u32_write_u32_of_disjoint _ _ _ _ (by omega),
      parse_u32_packHeaderBuf_12, Nat.mod_eq_of_lt hw]
  have e16 : parse_u32 (p.pack).buf 16 = p.xmit := by
    rw [pack_buf, parse_u32_write_u32_of_disjoint _ _ _ _ (by omega),
      parse_u32_packHeaderBuf_16, Nat.mod_eq_of_lt hx]
  have e20 : parse_u32 (p.pack).buf 20 = p.una := by
    rw [pack_buf, parse_u32_write_u32_of_disjoint _ _ _ _ (by omega),
      parse_u32_packHeaderBuf_20, Nat.mod_eq_of_lt hu]
  have e24 : parse_u32 (p.pack).buf 24 = p.seq := by
    rw [pack_buf, parse_u32_write_u32_of_disjoint _ _ _ _ (by omega),
      parse_u32_packHeaderBuf_24, Nat.mod_eq_of_lt hs]
  have e28 : byteAt (p.pack).buf 28 = p.cmd := by
    rw [pack_buf, byteAt_write_u32_of_disjoint _ _ _ _ (by omega),
      byteAt_packHeaderBuf_28, Nat.mod_eq_of_lt hc]
  have epl : ((p.pack).size - 29) % 2^16 = p.payload := by
    rw [pack_size]; omega
  unfold UcpPacket.parse
  rw [if_neg (by simp [pack_is_legal])]
  simp only [e4, e8, e12, e16, e20, e24, e28, epl, CMD_SYN, CMD_HEARTBEAT_ACK,
    UCP_PACKET_META_SIZE]

/-- C5: for every packet whose `cmd` is one of the six commands and whose
payload fits in a datagram, `pack` followed by `parse` succeeds and recovers
every header field and the payload contents. -/
theorem C5_pack_parse_roundtrip (p : UcpPacket)
    (hcmd1 : 128 ≤ p.cmd) (hcmd2 : p.cmd ≤ 133) (hpl : p.payload ≤ 1371)
    (hsid : p.session_id < 2^32) (hts : p.timestamp < 2^32) (hw : p.window < 2^32)
    (hx : p.xmit < 2^32) (hu : p.una < 2^32) (hs : p.seq < 2^32) :
    ((p.pack).parse).2 = true ∧
    ((p.pack).parse).1.session_id = p.session_id ∧
    ((p.pack).parse).1.timestamp = p.timestamp ∧
    ((p.pack).parse).1.window = p.window ∧
    ((p.pack).parse).1.xmit = p.xmit ∧
    ((p.pack).parse).1.una = p.una ∧
    ((p.pack).parse).1.seq = p.seq ∧
    ((p.pack).parse).1.cmd = p.cmd ∧
    ((p.pack).parse).1.payloadBytes = p.payloadBytes := by
  rw [parse_pack p hsid hts hw hx hu hs (by omega) hpl]
  refine ⟨by simp [hcmd1, hcmd2], rfl, rfl, rfl, rfl, rfl, rfl, rfl, ?_⟩
  unfold UcpPacket.payloadBytes
  simp only [List.map_inj_left, List.mem_range]
  intro k hk
  exact byteAt_pack_buf_of_ge p (UCP_PACKET_META_SIZE + k) (by unfold UCP_PACKET_META_SIZE; omega)

/-- C6: for a buffer with declared size at most the 1400-byte MTU, `parse`
succeeds iff the size admits the 29-byte header, the CRC-32/IEEE over bytes
`[4..size]` equals the big-endian `u32` in bytes `[0..4]`, and the command
byte at offset 28 is one of the six known commands; on success the payload
length is `size - 29` and the read cursor is at offset 29. -/
theorem C6_parse_characterization (p : UcpPacket) (hsz : p.size ≤ 1400) :
    ((p.parse).2 = true ↔
      (29 ≤ p.size ∧
       checksum_ieee (bytesRange p.buf 4 p.size) = parse_u32 p.buf 0 ∧
       (byteAt p.buf 28 = 128 ∨ byteAt p.buf 28 = 129 ∨ byteAt p.buf 28 = 130 ∨
        byteAt p.buf 28 = 131 ∨ byteAt p.buf 28 = 132 ∨ byteAt p.buf 28 = 133))) ∧
    ((p.parse).2 = true →
      ((p.parse).1.payload = p.size - 29 ∧ (p.parse).1.read_pos = 29)) := by
  unfold UcpPacket.parse UcpPacket.is_legal UcpPacket.is_crc32_correct
  split
  · rename_i h
    simp only [Bool.and_eq_true, decide_eq_true_eq, beq_iff_eq,
      UCP_PACKET_META_SIZE] at h
    simp only [Bool.false_eq_true, false_iff, false_implies, and_true, not_and, not_or]
    intro h1 h2
    exact absurd ⟨h1, h2⟩ h
  · rename_i h
    rw [not_not] at h
    simp only [Bool.and_eq_true, decide_eq_true_eq, beq_iff_eq,
      UCP_PACKET_META_SIZE] at h
    obtain ⟨h1, h2⟩ := h
    simp only [Bool.and_eq_true, decide_eq_true_eq, CMD_SYN, CMD_HEARTBEAT_ACK,
      UCP_PACKET_META_SIZE]
    constructor
    · constructor
      · rintro ⟨hb1, hb2⟩
        exact ⟨h1, h2, by omega⟩
      · rintro ⟨-, -, hb⟩
        omega
    · intro _
      exact ⟨by omega, trivial⟩

/-! ## Wrap-safe sequence arithmetic -/

theorem sdiff_base (b x y : Nat) (hx : x < 2^31) (hy : y < 2^31) :
    sdiff ((b + x) % 2^32) ((b + y) % 2^32) = (x : Int) - y := by
  unfold sdiff u32sub
  split <;> omega

theorem seqLt_base (b x y : Nat) (hx : x < 2^31) (hy : y < 2^31) :
    seqLt ((b + x) % 2^32) ((b + y) % 2^32) ↔ x < y := by
  unfold seqLt
  rw [sdiff_base b x y hx hy]
  omega

theorem sdiff_base_neg_iff (b x y : Nat) (hx : x < 2^31) (hy : y < 2^31) :
    sdiff ((b + x) % 2^32) ((b + y) % 2^32) < 0 ↔ x < y := by
  rw [sdiff_base b x y hx hy]; omega

theorem sdiff_base_zero_iff (b x y : Nat) (hx : x < 2^31) (hy : y < 2^31) :
    sdiff ((b + x) % 2^32) ((b + y) % 2^32) = 0 ↔ x = y := by
  rw [sdiff_base b x y hx hy]; omega

/-! ## `insertAt` -/

theorem insertAt_zero {α : Type} (x : α) (l : List α) :
    UcpStream.insertAt 0 x l = x :: l := rfl

theorem insertAt_succ_cons {α : Type} (n : Nat) (x a : α) (l : List α) :
    UcpStream.insertAt (n + 1) x (a :: l) = a :: UcpStream.insertAt n x l := by
  simp [UcpStream.insertAt]

theorem mem_insertAt {α : Type} (y x : α) (n : Nat) (l : List α) :
    y ∈ UcpStream.insertAt n x l ↔ y = x ∨ y ∈ l := by
  unfold UcpStream.insertAt
  constructor
  · intro h
    rcases List.mem_append.mp h with h | h
    · exact Or.inr (List.mem_of_mem_take h)
    · rcases List.mem_cons.mp h with h | h
      · exact Or.inl h
      · exact Or.inr (List.mem_of_mem_drop h)
  · intro h
    rcases h with h | h
    · subst h
      exact List.mem_append.mpr (Or.inr (List.mem_cons_self _ _))
    · conv at h => rw [← List.take_append_drop n l]
      rcases List.mem_append.mp h with h | h
      · exact List.mem_append.mpr (Or.inl h)
      · exact List.mem_append.mpr (Or.inr (List.mem_cons_of_mem _ h))

theorem map_insertAt {α β : Type} (f : α → β) (n : Nat) (x : α) (l : List α) :
    (UcpStream.insertAt n x l).map f = UcpStream.insertAt n (f x) (l.map f) := by
  simp [UcpStream.insertAt, List.map_take, List.map_drop]

theorem insertAt_perm {α : Type} (n : Nat) (x : α) (l : List α) :
    List.Perm (UcpStream.insertAt n x l) (x :: l) := by
  unfold UcpStream.insertAt
  calc List.Perm (l.take n ++ x :: l.drop n) (x :: (l.take n ++ l.drop n)) :=
        List.perm_middle
    _ = x :: l := by rw [List.take_append_drop]

theorem count_insertAt {α : Type} [DecidableEq α] (n : Nat) (x y : α) (l : List α) :
    (UcpStream.insertAt n x l).count y = l.count y + if y = x then 1 else 0 := by
  rw [(insertAt_perm n x l).count_eq, List.count_cons]
  by_cases h : y = x
  · simp [h]
  · simp only [h, if_false, beq_iff_eq]
    rw [if_neg (fun hxy => h hxy.symm)]

theorem length_insertAt {α : Type} (n : Nat) (x : α) (l : List α) :
    (UcpStream.insertAt n x l).length = l.length + 1 := by
  simp [UcpStream.insertAt]
  omega

/-- Inserting a fresh key at the position found by the scan keeps the key
list strictly sorted. -/
theorem insertAt_takeWhile_sorted (kp : Nat) :
    ∀ ks : List Nat, ks.Pairwise (· < ·) → kp ∉ ks →
      (UcpStream.insertAt (ks.takeWhile (fun k => decide (k < kp))).length kp ks).Pairwise (· < ·) := by
  intro ks
  induction ks with
  | nil => intro _ _; simp [insertAt_zero]
  | cons k0 krest ih =>
    intro hp hnm
    have hne : kp ≠ k0 := fun h => hnm (h ▸ List.mem_cons_self k0 krest)
    rw [List.takeWhile_cons]
    by_cases h : k0 < kp
    · simp only [h, decide_True, List.length_cons, insertAt_succ_cons]
      refine List.Pairwise.cons ?_ (ih (List.Pairwise.of_cons hp) (fun hm => hnm (List.mem_cons_of_mem _ hm)))
      intro y hy
      rcases (mem_insertAt y kp _ krest).mp hy with rfl | hy
      · exact h
      · exact (List.pairwise_cons.mp hp).1 y hy
    · simp only [h, decide_False, List.length_nil, insertAt_zero]
      refine List.Pairwise.cons ?_ hp
      intro y hy
      rcases List.mem_cons.mp hy with rfl | hy
      · omega
      · have := (List.pairwise_cons.mp hp).1 y hy
        omega

/-! ## Sorted key decompositions -/

theorem pairwise_keys_chain_seqLt (b : Nat) (ks : List Nat)
    (hb : ∀ k ∈ ks, k < 2^31) (h : ks.Pairwise (· < ·)) :
    (ks.map (fun k => (b + k) % 2^32)).Chain' seqLt := by
  have hp : ks.Pairwise (fun x y => seqLt ((b + x) % 2^32) ((b + y) % 2^32)) := by
    refine List.Pairwise.imp_of_mem ?_ h
    intro x y hx hy hxy
    exact (seqLt_base b x y (hb x hx) (hb y hy)).mpr hxy
  exact (List.chain'_map _).mpr hp.chain'

theorem nodup_keys_map (b : Nat) (ks : List Nat)
    (hb : ∀ k ∈ ks, k < 2^32) (h : ks.Nodup) :
    (ks.map (fun k => (b + k) % 2^32)).Nodup :=
  h.map_on (fun x hx y hy hxy => by
    have h1 := hb x hx
    have h2 := hb y hy
    omega)

theorem not_mem_keys_map (b kp : Nat) (ks : List Nat)
    (hkp : kp < 2^32) (hb : ∀ k ∈ ks, k < 2^32) (h : kp ∉ ks) :
    (b + kp) % 2^32 ∉ ks.map (fun k => (b + k) % 2^32) := by
  intro hm
  rcases List.mem_map.mp hm with ⟨k, hk, hkeq⟩
  have := hb k hk
  have : k = kp := by omega
  exact h (this ▸ hk)

/-! ## The `process_data` scan -/

theorem scan_pos_not_mem (b kp : Nat) (hkp : kp < 2^31) :
    ∀ (q : List UcpPacket) (ks : List Nat),
      q.map UcpPacket.seq = ks.map (fun k => (b + k) % 2^32) →
      (∀ k ∈ ks, k < 2^31) → kp ∉ ks →
      UcpStream.scan_pos ((b + kp) % 2^32) q =
        some (ks.takeWhile (fun k => decide (k < kp))).length := by
  intro q
  induction q with
  | nil =>
    intro ks hmap _ _
    cases ks with
    | nil => simp [UcpStream.scan_pos]
    | cons k krest => simp at hmap
  | cons p rest ih =>
    intro ks hmap hb hnm
    cases ks with
    | nil => simp at hmap
    | cons k0 krest =>
      simp only [List.map_cons, List.cons.injEq] at hmap
      obtain ⟨h0, hrest⟩ := hmap
      have hk0 : k0 < 2^31 := hb k0 (List.mem_cons_self _ _)
      have hne : kp ≠ k0 := fun h => hnm (h ▸ List.mem_cons_self k0 krest)
      unfold UcpStream.scan_pos
      rw [h0, List.takeWhile_cons]
      by_cases hlt : kp < k0
      · rw [if_neg (by rw [sdiff_base_zero_iff b kp k0 hkp hk0]; omega),
          if_pos ((sdiff_base_neg_iff b kp k0 hkp hk0).mpr hlt)]
        simp [show ¬ k0 < kp by omega]
      · rw [if_neg (by rw [sdiff_base_zero_iff b kp k0 hkp hk0]; omega),
          if_neg (by rw [sdiff_base_neg_iff b kp k0 hkp hk0]; omega),
          ih krest hrest (fun k hk => hb k (List.mem_cons_of_mem _ hk))
            (fun hm => hnm (List.mem_cons_of_mem _ hm))]
        simp [show k0 < kp by omega]

theorem scan_pos_mem (b kp : Nat) (hkp : kp < 2^31) :
    ∀ (q : List UcpPacket) (ks : List Nat),
      q.map UcpPacket.seq = ks.map (fun k => (b + k) % 2^32) →
      (∀ k ∈ ks, k < 2^31) → ks.Pairwise (· < ·) → kp ∈ ks →
      UcpStream.scan_pos ((b + kp) % 2^32) q = none := by
  intro q
  induction q with
  | nil =>
    intro ks hmap _ _ hm
    cases ks with
    | nil => simp at hm
    | cons k krest => simp at hmap
  | cons p rest ih =>
    intro ks hmap hb hp hm
    cases ks with
    | nil => simp at hm
    | cons k0 krest =>
      simp only [List.map_cons, List.cons.injEq] at hmap
      obtain ⟨h0, hrest⟩ := hmap
      have hk0 : k0 < 2^31 := hb k0 (List.mem_cons_self _ _)
      unfold UcpStream.scan_pos
      rw [h0]
      by_cases heq : kp = k0
      · rw [if_pos ((sdiff_base_zero_iff b kp k0 hkp hk0).mpr heq)]
      · have hmem : kp ∈ krest := by
          rcases List.mem_cons.mp hm with h | h
          · exact absurd h heq
          · exact h
        have hgt : k0 < kp := (List.pairwise_cons.mp hp).1 kp hmem
        rw [if_neg (by rw [sdiff_base_zero_iff b kp k0 hkp hk0]; omega),
          if_neg (by rw [sdiff_base_neg_iff b kp k0 hkp hk0]; omega),
          ih krest hrest (fun k hk => hb k (List.mem_cons_of_mem _ hk))
            (List.Pairwise.of_cons hp) hmem]
        rfl

/-! ## `process_data` branch equations -/

theorem process_data_eq_low (st : UcpStream) (P : UcpPacket)
    (h : sdiff P.seq st.una < 0) :
    st.process_data P = { st with ack_list := st.ack_list ++ [(P.seq, P.timestamp)] } := by
  unfold UcpStream.process_data
  rw [if_pos h]

theorem process_data_eq_dup (st : UcpStream) (P : UcpPacket)
    (h1 : ¬ sdiff P.seq st.una < 0)
    (h2 : UcpStream.scan_pos P.seq st.recv_queue = none) :
    st.process_data P = { st with ack_list := st.ack_list ++ [(P.seq, P.timestamp)] } := by
  unfold UcpStream.process_data
  rw [if_neg h1, h2]

theorem process_data_eq_insert (st : UcpStream) (P : UcpPacket) (pos : Nat)
    (h1 : ¬ sdiff P.seq st.una < 0)
    (h2 : UcpStream.scan_pos P.seq st.recv_queue = some pos) :
    st.process_data P = { st with
      ack_list := st.ack_list ++ [(P.seq, P.timestamp)]
      recv_queue := UcpStream.insertAt pos P st.recv_queue
      una := UcpStream.advance_una st.una
        ((UcpStream.insertAt pos P st.recv_queue).drop pos) } := by
  unfold UcpStream.process_data
  rw [if_neg h1, h2]

/-! ## `recv` only drains from the front -/

theorem recv_loop_map_seq_suffix (una cap : Nat) (q : List UcpPacket) (acc : List Nat) :
    ((UcpStream.recv_loop una cap q acc).1.map UcpPacket.seq) <:+ (q.map UcpPacket.seq) := by
  induction q, acc using UcpStream.recv_loop.induct una cap with
  | case1 acc => simp [UcpStream.recv_loop]
  | case2 acc p rest h1 h2 =>
    rw [UcpStream.recv_loop]
    simp only [h1, if_true, h2, if_pos]
    exact List.suffix_refl _
  | case3 acc p rest h1 h2 r hrem ih =>
    simp only [r] at hrem ih
    rw [UcpStream.recv_loop, if_pos h1, if_neg h2, if_pos hrem]
    refine ih.trans ?_
    simp only [List.map_cons]
    exact List.suffix_cons _ _
  | case4 acc p rest h1 h2 r hrem ih =>
    simp only [r] at hrem ih
    rw [UcpStream.recv_loop, if_pos h1, if_neg h2, if_neg hrem]
    exact ih.trans (List.suffix_refl _)
  | case5 acc p rest h1 =>
    rw [UcpStream.recv_loop]
    simp only [h1]
    exact List.suffix_refl _

/-- C1 (amended): `process_data` keeps the seqs of `recv_queue` strictly
ascending with no duplicates, and only inserts a packet whose
`(seq - una) as i32` was non-negative at entry; `recv` also preserves the
strict ascending order.  (`p.seq ≥ una` does NOT hold at every instant: see
the counterexample.) -/
theorem C1_recv_queue_order_invariant (st : UcpStream) (P : UcpPacket)
    (b ku kp : Nat) (ks : List Nat)
    (hu : st.una = (b + ku) % 2^32) (hku : ku < 2^31)
    (hP : P.seq = (b + kp) % 2^32) (hkp : kp < 2^31)
    (hmap : st.recv_queue.map UcpPacket.seq = ks.map (fun k => (b + k) % 2^32))
    (hb : ∀ k ∈ ks, k < 2^31) (hks : ks.Chain' (· < ·)) :
    (((st.process_data P).recv_queue.map UcpPacket.seq).Chain' seqLt ∧
     ((st.process_data P).recv_queue.map UcpPacket.seq).Nodup) ∧
    (st.recv_queue.length < (st.process_data P).recv_queue.length →
      0 ≤ sdiff P.seq st.una) ∧
    ∀ cap, (((st.recv cap).1.recv_queue.map UcpPacket.seq).Chain' seqLt ∧
            ((st.recv cap).1.recv_queue.map UcpPacket.seq).Nodup) := by
  have hpair : ks.Pairwise (· < ·) := List.chain'_iff_pairwise.mp hks
  have hnd : ks.Nodup := hpair.imp Nat.ne_of_lt
  have hchain0 : (st.recv_queue.map UcpPacket.seq).Chain' seqLt := by
    rw [hmap]; exact pairwise_keys_chain_seqLt b ks hb hpair
  have hnd0 : (st.recv_queue.map UcpPacket.seq).Nodup := by
    rw [hmap]
    exact nodup_keys_map b ks (fun k hk => by have := hb k hk; omega) hnd
  refine ⟨?_, ?_, ?_⟩
  · by_cases hlow : sdiff P.seq st.una < 0
    · rw [process_data_eq_low st P hlow]; exact ⟨hchain0, hnd0⟩
    · by_cases hmem : kp ∈ ks
      · rw [process_data_eq_dup st P hlow
          (by rw [hP]; exact scan_pos_mem b kp hkp _ ks hmap hb hpair hmem)]
        exact ⟨hchain0, hnd0⟩
      · have hscan := scan_pos_not_mem b kp hkp st.recv_queue ks hmap hb hmem
        rw [process_data_eq_insert st P _ hlow (by rw [hP]; exact hscan)]
        have hmap' : (UcpStream.insertAt
              (ks.takeWhile (fun k => decide (k < kp))).length P st.recv_queue).map UcpPacket.seq
            = (UcpStream.insertAt
              (ks.takeWhile (fun k => decide (k < kp))).length kp ks).map
                (fun k => (b + k) % 2^32) := by
          rw [map_insertAt, map_insertAt, hmap, hP]
        have hb' : ∀ k ∈ UcpStream.insertAt
            (ks.takeWhile (fun k => decide (k < kp))).length kp ks, k < 2^31 := by
          intro k hk
          rcases (mem_insertAt k kp _ ks).mp hk with rfl | hk
          · exact hkp
          · exact hb k hk
        have hpair' := insertAt_takeWhile_sorted kp ks hpair hmem
        constructor
        · rw [hmap']; exact pairwise_keys_chain_seqLt b _ hb' hpair'
        · rw [hmap']
          exact nodup_keys_map b _ (fun k hk => by have := hb' k hk; omega)
            (hpair'.imp Nat.ne_of_lt)
  · intro hgrow
    by_cases hlow : sdiff P.seq st.una < 0
    · rw [process_data_eq_low st P hlow] at hgrow
      simp at hgrow
    · omega
  · intro cap
    have hsuff := recv_loop_map_seq_suffix st.una cap st.recv_queue []
    have hq : (st.recv cap).1.recv_queue
        = (UcpStream.recv_loop st.una cap st.recv_queue []).1 := rfl
    rw [hq]
    exact ⟨hchain0.suffix hsuff, hnd0.sublist hsuff.sublist⟩

/-- C1 counterexample: starting from the freshly-accepted server state
(`una = 2`, empty `recv_queue`), processing the DATA packet with `seq = 2`
advances `una` to 3 while the packet stays in `recv_queue`, so
"every packet in recv_queue has `seq ≥ una`" is false at that instant,
both in the plain and in the wrap-safe reading. -/
theorem C1_seq_ge_una_counterexample :
    ((exampleStream.process_data exampleData).recv_queue.map UcpPacket.seq = [2]) ∧
    (exampleStream.process_data exampleData).una = 3 ∧
    ¬ (∀ p ∈ (exampleStream.process_data exampleData).recv_queue,
        0 ≤ sdiff p.seq (exampleStream.process_data exampleData).una) ∧
    ¬ (∀ p ∈ (exampleStream.process_data exampleData).recv_queue,
        (exampleStream.process_data exampleData).una ≤ p.seq) := by
  refine ⟨?_, ?_, ?_, ?_⟩ <;> decide

/-- C7: delivering the same DATA packet (seq not yet buffered, wrap-safely at
or above `una`) twice leaves exactly one copy in `recv_queue`, appends its
`(seq, timestamp)` pair to `ack_list` twice (ACK entries are not deduplicated),
and the second delivery changes neither `recv_queue` nor `una`. -/
theorem C7_duplicate_data_delivery (st : UcpStream) (P : UcpPacket)
    (b ku kp : Nat) (ks : List Nat)
    (hu : st.una = (b + ku) % 2^32) (hku : ku < 2^31)
    (hP : P.seq = (b + kp) % 2^32) (hkp : kp < 2^31)
    (hge : 0 ≤ sdiff P.seq st.una)
    (hmap : st.recv_queue.map UcpPacket.seq = ks.map (fun k => (b + k) % 2^32))
    (hb : ∀ k ∈ ks, k < 2^31) (hks : ks.Chain' (· < ·)) (hnew : kp ∉ ks)
    (hack : st.ack_list.count (P.seq, P.timestamp) = 0) :
    ((st.process_data P).process_data P).recv_queue = (st.process_data P).recv_queue ∧
    ((st.process_data P).process_data P).una = (st.process_data P).una ∧
    (((st.process_data P).process_data P).recv_queue.map UcpPacket.seq).count P.seq = 1 ∧
    ((st.process_data P).process_data P).ack_list.count (P.seq, P.timestamp) = 2 := by
  have hpair : ks.Pairwise (· < ·) := List.chain'_iff_pairwise.mp hks
  have hnotlow : ¬ sdiff P.seq st.una < 0 := by omega
  have hscan := scan_pos_not_mem b kp hkp st.recv_queue ks hmap hb hnew
  have hst1 := process_data_eq_insert st P _ hnotlow (by rw [hP]; exact hscan)
  set pos := (ks.takeWhile (fun k => decide (k < kp))).length with hpos
  -- the key list of the queue after the first delivery
  have hmap' : (UcpStream.insertAt pos P st.recv_queue).map UcpPacket.seq
      = (UcpStream.insertAt pos kp ks).map (fun k => (b + k) % 2^32) := by
    rw [map_insertAt, map_insertAt, hmap, hP]
  have hb' : ∀ k ∈ UcpStream.insertAt pos kp ks, k < 2^31 := by
    intro k hk
    rcases (mem_insertAt k kp _ ks).mp hk with rfl | hk
    · exact hkp
    · exact hb k hk
  have hpair' := insertAt_takeWhile_sorted kp ks hpair hnew
  -- the second delivery never touches recv_queue or una
  have hst2 : (st.process_data P).process_data P
      = { st.process_data P with
          ack_list := (st.process_data P).ack_list ++ [(P.seq, P.timestamp)] } := by
    by_cases hlow2 : sdiff P.seq (st.process_data P).una < 0
    · exact process_data_eq_low _ P hlow2
    · refine process_data_eq_dup _ P hlow2 ?_
      rw [hst1, hP]
      exact scan_pos_mem b kp hkp _ (UcpStream.insertAt pos kp ks) hmap' hb' hpair'
        ((mem_insertAt kp kp pos ks).mpr (Or.inl rfl))
  refine ⟨by rw [hst2], by rw [hst2], ?_, ?_⟩
  · rw [hst2]
    show ((st.process_data P).recv_queue.map UcpPacket.seq).count P.seq = 1
    rw [hst1]
    show ((UcpStream.insertAt pos P st.recv_queue).map UcpPacket.seq).count P.seq = 1
    rw [hmap', map_insertAt, hP, count_insertAt,
      List.count_eq_zero.mpr (not_mem_keys_map b kp ks (by omega)
        (fun k hk => by have := hb k hk; omega) hnew)]
    simp
  · rw [hst2, hst1]
    show (st.ack_list ++ [(P.seq, P.timestamp)] ++ [(P.seq, P.timestamp)]).count
      (P.seq, P.timestamp) = 2
    rw [List.count_append, List.count_append, hack]
    simp

theorem C1_recv_queue_order_invariant_witness :
    (((exampleStream.process_data exampleData).recv_queue.map UcpPacket.seq).Chain' seqLt ∧
     ((exampleStream.process_data exampleData).recv_queue.map UcpPacket.seq).Nodup) :=
  (C1_recv_queue_order_invariant exampleStream exampleData 0 2 2 []
    rfl (by decide) rfl (by decide) rfl (by simp) (by simp)).1

theorem C7_duplicate_data_delivery_witness :
    ((exampleStream.process_data exampleData).process_data exampleData).ack_list.count
      (2, 7) = 2 :=
  (C7_duplicate_data_delivery exampleStream exampleData 0 2 2 []
    rfl (by decide) rfl (by decide) (by decide) rfl (by simp) (by simp) (by simp)
    (by decide)).2.2.2

theorem C5_pack_parse_roundtrip_witness :
    ((({ UcpPacket.new with
        session_id := 9
        timestamp := 11
        window := 512
        xmit := 0
        una := 5
        seq := 6
        cmd := 131 } : UcpPacket).pack).parse).2 = true :=
  (C5_pack_parse_roundtrip _ (by decide) (by decide) (by decide) (by decide) (by decide)
    (by decide) (by decide) (by decide) (by decide)).1

theorem C6_parse_characterization_witness :
    (((UcpPacket.new.parse).2 = true ↔
      (29 ≤ UcpPacket.new.size ∧
       checksum_ieee (bytesRange UcpPacket.new.buf 4 UcpPacket.new.size)
         = parse_u32 UcpPacket.new.buf 0 ∧
       (byteAt UcpPacket.new.buf 28 = 128 ∨ byteAt UcpPacket.new.buf 28 = 129 ∨
        byteAt UcpPacket.new.buf 28 = 130 ∨ byteAt UcpPacket.new.buf 28 = 131 ∨
        byteAt UcpPacket.new.buf 28 = 132 ∨ byteAt UcpPacket.new.buf 28 = 133))) ∧
     ((UcpPacket.new.parse).2 = true →
       ((UcpPacket.new.parse).1.payload = UcpPacket.new.size - 29 ∧
        (UcpPacket.new.parse).1.read_pos = 29))) :=
  C6_parse_characterization UcpPacket.new (by decide)

/-! ## `send_pending_packets` and `timeout_resend` -/

theorem sp_loop_map_seq (now una lw window : Nat) (sq sb em : List UcpPacket) :
    ((UcpStream.sp_loop now una lw window sq sb em).1 ++
      (UcpStream.sp_loop now una lw window sq sb em).2.1).map UcpPacket.seq
      = (sq ++ sb).map UcpPacket.seq := by
  induction sq, sb, em using UcpStream.sp_loop.induct now una lw window with
  | case1 sq em h =>
    rw [UcpStream.sp_loop, if_pos h]
  | case2 sq em h p rest hb =>
    rw [UcpStream.sp_loop, if_pos h, if_pos hb]
  | case3 sq em h p rest hb p' ih =>
    simp only [p'] at ih
    rw [UcpStream.sp_loop, if_pos h, if_neg hb]
    rw [ih]
    simp [List.append_assoc, pack_seq]
  | case4 sq sb em h =>
    rw [UcpStream.sp_loop.eq_def, if_neg h]

theorem sp_loop_length (now una lw window : Nat) (sq sb em : List UcpPacket) :
    (UcpStream.sp_loop now una lw window sq sb em).1.length
      ≤ max sq.length window := by
  induction sq, sb, em using UcpStream.sp_loop.induct now una lw window with
  | case1 sq em h =>
    rw [UcpStream.sp_loop, if_pos h]
    exact Nat.le_max_left _ _
  | case2 sq em h p rest hb =>
    rw [UcpStream.sp_loop, if_pos h, if_pos hb]
    exact Nat.le_max_left _ _
  | case3 sq em h p rest hb p' ih =>
    rw [UcpStream.sp_loop, if_pos h, if_neg hb]
    refine ih.trans ?_
    have hlen : (sq ++ [p']).length = sq.length + 1 := by simp
    rw [hlen]
    omega
  | case4 sq sb em h =>
    rw [UcpStream.sp_loop.eq_def, if_neg h]
    exact Nat.le_max_left _ _

theorem sp_loop_em_prefix (now una lw window : Nat) (sq sb em : List UcpPacket) :
    em <+: (UcpStream.sp_loop now una lw window sq sb em).2.2 := by
  induction sq, sb, em using UcpStream.sp_loop.induct now una lw window with
  | case1 sq em h =>
    rw [UcpStream.sp_loop, if_pos h]
  | case2 sq em h p rest hb =>
    rw [UcpStream.sp_loop, if_pos h, if_pos hb]
  | case3 sq em h p rest hb p' ih =>
    rw [UcpStream.sp_loop, if_pos h, if_neg hb]
    exact (List.prefix_append em [p']).trans ih
  | case4 sq sb em h =>
    rw [UcpStream.sp_loop.eq_def, if_neg h]

theorem sp_loop_mem (now una lw window : Nat) (sq sb em : List UcpPacket) :
    ∀ q ∈ (UcpStream.sp_loop now una lw window sq sb em).1,
      q ∈ sq ∨ q ∈ (UcpStream.sp_loop now una lw window sq sb em).2.2 := by
  induction sq, sb, em using UcpStream.sp_loop.induct now una lw window with
  | case1 sq em h =>
    rw [UcpStream.sp_loop, if_pos h]
    exact fun q hq => Or.inl hq
  | case2 sq em h p rest hb =>
    rw [UcpStream.sp_loop, if_pos h, if_pos hb]
    exact fun q hq => Or.inl hq
  | case3 sq em h p rest hb p' ih =>
    rw [UcpStream.sp_loop, if_pos h, if_neg hb]
    intro q hq
    rcases ih q hq with hq2 | hq2
    · rcases List.mem_append.mp hq2 with hq3 | hq3
      · exact Or.inl hq3
      · refine Or.inr ?_
        have hpre := sp_loop_em_prefix now una lw window (sq ++ [p']) rest (em ++ [p'])
        exact hpre.subset (List.mem_append.mpr (Or.inr hq3))
    · exact Or.inr hq2
  | case4 sq sb em h =>
    rw [UcpStream.sp_loop.eq_def, if_neg h]
    exact fun q hq => Or.inl hq

theorem tr_loop_length (now una lw rto : Nat) (q : List UcpPacket) :
    (UcpStream.tr_loop now una lw rto q).1.length = q.length := by
  induction q with
  | nil => rfl
  | cons p rest ih =>
    unfold UcpStream.tr_loop
    split <;> simp [ih]

theorem tr_loop_map_seq (now una lw rto : Nat) (q : List UcpPacket) :
    (UcpStream.tr_loop now una lw rto q).1.map UcpPacket.seq = q.map UcpPacket.seq := by
  induction q with
  | nil => rfl
  | cons p rest ih =>
    unfold UcpStream.tr_loop
    split <;> simp [ih, pack_seq]

theorem tr_loop_mem (now una lw rto : Nat) (q : List UcpPacket) :
    ∀ p ∈ (UcpStream.tr_loop now una lw rto q).1,
      p ∈ q ∨ p ∈ (UcpStream.tr_loop now una lw rto q).2 := by
  induction q with
  | nil => intro p hp; exact Or.inl hp
  | cons p0 rest ih =>
    unfold UcpStream.tr_loop
    split
    · intro p hp
      rcases List.mem_cons.mp hp with rfl | hp
      · exact Or.inr (List.mem_cons_self _ _)
      · rcases ih p hp with h | h
        · exact Or.inl (List.mem_cons_of_mem _ h)
        · exact Or.inr (List.mem_cons_of_mem _ h)
    · intro p hp
      rcases List.mem_cons.mp hp with rfl | hp
      · exact Or.inl (List.mem_cons_self _ _)
      · rcases ih p hp with h | h
        · exact Or.inl (List.mem_cons_of_mem _ h)
        · exact Or.inr h

/-- C2 (amended): `send_pending_packets` keeps the seqs of `send_queue`
strictly ascending (given that the staged seqs behind it continue the order),
and every packet it appends to `send_queue` is emitted at that very moment
(it appears in the emission list); `timeout_resend` preserves the seq list
exactly and only re-emits packets already in `send_queue`.  The claim's
`xmit ≥ 1` is false: `xmit` counts retransmissions, so a packet that has been
emitted exactly once carries `xmit = 0` (see the counterexample). -/
theorem C2_send_queue_order_and_emission (now : Nat) (st : UcpStream)
    (h : ((st.send_queue ++ st.send_buffer).map UcpPacket.seq).Chain' seqLt) :
    ((st.send_pending_packets now).1.send_queue.map UcpPacket.seq).Chain' seqLt ∧
    (∀ p ∈ (st.send_pending_packets now).1.send_queue,
        p ∈ st.send_queue ∨ p ∈ (st.send_pending_packets now).2) ∧
    (∀ now2, (st.timeout_resend now2).1.send_queue.map UcpPacket.seq
        = st.send_queue.map UcpPacket.seq ∧
      ∀ p ∈ (st.timeout_resend now2).1.send_queue,
        p ∈ st.send_queue ∨ p ∈ (st.timeout_resend now2).2) := by
  have hq : (st.send_pending_packets now).1.send_queue
      = (UcpStream.sp_loop now st.una st.local_window st.remote_window
          st.send_queue st.send_buffer []).1 := rfl
  have hem : (st.send_pending_packets now).2
      = (UcpStream.sp_loop now st.una st.local_window st.remote_window
          st.send_queue st.send_buffer []).2.2 := rfl
  refine ⟨?_, ?_, ?_⟩
  · have hmap := sp_loop_map_seq now st.una st.local_window st.remote_window
      st.send_queue st.send_buffer []
    rw [List.map_append] at hmap
    rw [← hmap] at h
    rw [hq]
    exact (List.chain'_append.mp h).1
  · rw [hq, hem]
    exact sp_loop_mem now st.una st.local_window st.remote_window
      st.send_queue st.send_buffer []
  · intro now2
    exact ⟨tr_loop_map_seq now2 st.una st.local_window st.rto st.send_queue,
      tr_loop_mem now2 st.una st.local_window st.rto st.send_queue⟩

theorem C2_send_queue_order_and_emission_witness :
    ((exampleStaged.send_pending_packets 0).1.send_queue.map UcpPacket.seq).Chain' seqLt :=
  (C2_send_queue_order_and_emission 0 exampleStaged
    (by simp [exampleStaged, exampleStream, examplePkt1, UcpPacket.new])).1

/-- C2 counterexample: moving a staged DATA packet to `send_queue` emits it
once and leaves `xmit = 0` (`xmit` is only bumped by retransmissions), so
"every packet in send_queue has `xmit ≥ 1`" is false right after the move. -/
theorem C2_xmit_counterexample :
    (exampleStaged.send_pending_packets 0).1.send_queue.map UcpPacket.xmit = [0] ∧
    (exampleStaged.send_pending_packets 0).2.map UcpPacket.seq = [1] ∧
    ¬ (∀ p ∈ (exampleStaged.send_pending_packets 0).1.send_queue, 1 ≤ p.xmit) := by
  refine ⟨?_, ?_, ?_⟩ <;> decide

/-! ## `update` branch equations and per-step field preservation -/

theorem update_alive_eq (nowT : Int) (now : Nat) (r : Bool) (ob : Option Unit)
    (st : UcpStream) (h : nowT - st.alive_time < UCP_STREAM_BROKEN_MILLIS) :
    UcpStream.update nowT now (some r) ob st =
      some ((((((st.do_heartbeat nowT now).1.send_ack_list now).1.timeout_resend
            now).1).send_pending_packets now).1,
        r,
        (st.do_heartbeat nowT now).2 ++
          ((st.do_heartbeat nowT now).1.send_ack_list now).2 ++
          (((st.do_heartbeat nowT now).1.send_ack_list now).1.timeout_resend now).2 ++
          ((((((st.do_heartbeat nowT now).1.send_ack_list now).1.timeout_resend
            now).1)).send_pending_packets now).2,
        0) := by
  unfold UcpStream.update UcpStream.check_if_alive
  rw [if_pos h]
  rfl

theorem update_broken_eq (nowT : Int) (now : Nat) (ou : Option Bool)
    (st : UcpStream) (h : ¬ nowT - st.alive_time < UCP_STREAM_BROKEN_MILLIS) :
    UcpStream.update nowT now ou (some ()) st = some (st, false, [], 1) := by
  unfold UcpStream.update UcpStream.check_if_alive
  rw [if_neg h]
  rfl

theorem update_alive_no_on_update (nowT : Int) (now : Nat) (ob : Option Unit)
    (st : UcpStream) (h : nowT - st.alive_time < UCP_STREAM_BROKEN_MILLIS) :
    UcpStream.update nowT now none ob st = none := by
  unfold UcpStream.update UcpStream.check_if_alive
  rw [if_pos h]
  rfl

theorem update_broken_no_on_broken (nowT : Int) (now : Nat) (ou : Option Bool)
    (st : UcpStream) (h : ¬ nowT - st.alive_time < UCP_STREAM_BROKEN_MILLIS) :
    UcpStream.update nowT now ou none st = none := by
  unfold UcpStream.update UcpStream.check_if_alive
  rw [if_neg h]

theorem do_heartbeat_fields (nowT : Int) (now : Nat) (st : UcpStream) :
    (st.do_heartbeat nowT now).1.send_queue = st.send_queue ∧
    (st.do_heartbeat nowT now).1.remote_window = st.remote_window := by
  unfold UcpStream.do_heartbeat
  split <;> exact ⟨rfl, rfl⟩

theorem send_ack_list_state (now : Nat) (st : UcpStream) :
    (st.send_ack_list now).1 = { st with ack_list := [] } := by
  unfold UcpStream.send_ack_list
  by_cases h : st.ack_list.isEmpty <;> simp [h]

theorem send_ack_list_fields (now : Nat) (st : UcpStream) :
    (st.send_ack_list now).1.send_queue = st.send_queue ∧
    (st.send_ack_list now).1.remote_window = st.remote_window := by
  rw [send_ack_list_state]
  exact ⟨rfl, rfl⟩

theorem timeout_resend_fields (now : Nat) (st : UcpStream) :
    (st.timeout_resend now).1.send_queue.length = st.send_queue.length ∧
    (st.timeout_resend now).1.remote_window = st.remote_window :=
  ⟨tr_loop_length now st.una st.local_window st.rto st.send_queue, rfl⟩

theorem send_pending_packets_length (now : Nat) (st : UcpStream) :
    (st.send_pending_packets now).1.send_queue.length
      ≤ max st.send_queue.length st.remote_window :=
  sp_loop_length now st.una st.local_window st.remote_window
    st.send_queue st.send_buffer []

/-- C8 (amended): a completed `update` never pushes `send_queue` beyond
`max` of its entry length and `remote_window`; in particular, when
`len(send_queue) ≤ remote_window` held at entry it still holds afterwards.
The unconditional `len(send_queue) ≤ remote_window` of the claim fails when
an inbound packet shrank `remote_window` below the in-flight count (see the
counterexample): `update` adds nothing then, but removes nothing either. -/
theorem C8_send_queue_window_bound (nowT : Int) (now : Nat) (ou : Option Bool)
    (ob : Option Unit) (st st' : UcpStream) (res : Bool) (em : List UcpPacket)
    (k : Nat) (h : UcpStream.update nowT now ou ob st = some (st', res, em, k)) :
    st'.send_queue.length ≤ max st.send_queue.length st.remote_window := by
  by_cases halive : nowT - st.alive_time < UCP_STREAM_BROKEN_MILLIS
  · cases ou with
    | none =>
      rw [update_alive_no_on_update nowT now ob st halive] at h
      simp at h
    | some b =>
      rw [update_alive_eq nowT now b ob st halive] at h
      simp only [Option.some.injEq, Prod.mk.injEq] at h
      obtain ⟨hst, -⟩ := h
      rw [← hst]
      have b1 := send_pending_packets_length now
        (((st.do_heartbeat nowT now).1.send_ack_list now).1.timeout_resend now).1
      have b2 := timeout_resend_fields now ((st.do_heartbeat nowT now).1.send_ack_list now).1
      have b3 := send_ack_list_fields now (st.do_heartbeat nowT now).1
      have b4 := do_heartbeat_fields nowT now st
      rw [b2.1, b2.2, b3.1, b3.2, b4.1, b4.2] at b1
      exact b1
  · cases ob with
    | none =>
      rw [update_broken_no_on_broken nowT now ou st halive] at h
      simp at h
    | some u =>
      rw [update_broken_eq nowT now ou st halive] at h
      simp only [Option.some.injEq, Prod.mk.injEq] at h
      obtain ⟨hst, -⟩ := h
      rw [← hst]
      exact Nat.le_max_left _ _

theorem C8_send_queue_window_bound_witness :
    exampleStream.send_queue.length
      ≤ max exampleStream.send_queue.length exampleStream.remote_window :=
  C8_send_queue_window_bound 20000 0 (some true) (some ()) exampleStream
    exampleStream false [] 1
    (update_broken_eq 20000 0 (some true) exampleStream (by decide))

/-- C8 counterexample: with two packets in flight and `remote_window = 1`
(shrunk by an inbound packet since they were emitted), a completed `update`
leaves `len(send_queue) = 2 > 1 = remote_window`. -/
theorem C8_window_bound_counterexample :
    (UcpStream.update 0 0 (some true) (some ()) exampleShrunkWindow).map
        (fun x => (x.1.send_queue.length, x.1.remote_window)) = some (2, 1) ∧
    ¬ (2 ≤ 1) := by
  refine ⟨?_, by decide⟩
  decide

/-- C9: if `now - alive_time ≥ 20000` at entry, `update` invokes `on_broken`
once and returns false with the state untouched and nothing emitted
(heartbeat, ACK flush, retransmit scan and pending send are all skipped);
otherwise those four steps run in that order, their emissions are
concatenated in that order, and `update` returns `on_update`'s boolean. -/
theorem C9_update_control_flow (nowT : Int) (now : Nat) (r : Bool)
    (st : UcpStream) :
    (UCP_STREAM_BROKEN_MILLIS ≤ nowT - st.alive_time →
      UcpStream.update nowT now (some r) (some ()) st = some (st, false, [], 1)) ∧
    (nowT - st.alive_time < UCP_STREAM_BROKEN_MILLIS →
      UcpStream.update nowT now (some r) (some ()) st =
        some ((((((st.do_heartbeat nowT now).1.send_ack_list now).1.timeout_resend
              now).1).send_pending_packets now).1,
          r,
          (st.do_heartbeat nowT now).2 ++
            ((st.do_heartbeat nowT now).1.send_ack_list now).2 ++
            (((st.do_heartbeat nowT now).1.send_ack_list now).1.timeout_resend now).2 ++
            ((((((st.do_heartbeat nowT now).1.send_ack_list now).1.timeout_resend
              now).1)).send_pending_packets now).2,
          0)) :=
  ⟨fun h => update_broken_eq nowT now (some r) st (by omega),
   fun h => update_alive_eq nowT now r (some ()) st h⟩

theorem C9_update_control_flow_witness :
    UcpStream.update 20000 0 (some true) (some ()) exampleStream
      = some (exampleStream, false, [], 1) :=
  (C9_update_control_flow 20000 0 true exampleStream).1 (by decide)

/-- C10 (amended): `update` panics (unwraps a `None` callback) exactly when
it reaches the missing callback: with no `on_update` installed it panics
whenever the liveness check passes, and with no `on_broken` installed it
panics whenever the liveness check fails; installing both makes `update`
total.  (The claim's unqualified first clause is refuted by the
counterexample: a liveness-failed `update` with `on_broken` installed
returns normally even though `on_update` was never installed.) -/
theorem C10_update_callback_panics (nowT : Int) (now : Nat) (st : UcpStream) :
    (nowT - st.alive_time < UCP_STREAM_BROKEN_MILLIS →
      ∀ ob, UcpStream.update nowT now none ob st = none) ∧
    (UCP_STREAM_BROKEN_MILLIS ≤ nowT - st.alive_time →
      ∀ ou, UcpStream.update nowT now ou none st = none) ∧
    (∀ r, (UcpStream.update nowT now (some r) (some ()) st).isSome = true) := by
  refine ⟨?_, ?_, ?_⟩
  · intro h ob
    exact update_alive_no_on_update nowT now ob st h
  · intro h ou
    exact update_broken_no_on_broken nowT now ou st (by omega)
  · intro r
    by_cases halive : nowT - st.alive_time < UCP_STREAM_BROKEN_MILLIS
    · rw [update_alive_eq nowT now r (some ()) st halive]
      rfl
    · rw [update_broken_eq nowT now (some r) st halive]
      rfl

theorem C10_update_callback_panics_witness :
    UcpStream.update 0 0 none (some ()) exampleStream = none ∧
    UcpStream.update 20000 0 (some true) none exampleStream = none ∧
    (UcpStream.update 0 0 (some true) (some ()) exampleStream).isSome = true :=
  ⟨(C10_update_callback_panics 0 0 exampleStream).1 (by decide) (some ()),
   (C10_update_callback_panics 20000 0 exampleStream).2.1 (by decide) (some true),
   (C10_update_callback_panics 0 0 exampleStream).2.2 true⟩

/-- C10 counterexample: a stream whose liveness window has expired and whose
`on_broken` is installed completes `update` without panicking even though
`set_on_update` was never called, refuting the claim's unqualified
"calling update without on_update panics". -/
theorem C10_no_panic_counterexample :
    UcpStream.update 20000 0 none (some ()) exampleStream
      = some (exampleStream, false, [], 1) :=
  update_broken_eq 20000 0 none exampleStream (by decide)

/-! ## The `process_an_ack` scan -/

theorem paa_scan_not_found (s ts : Nat) (q : List UcpPacket)
    (h : s ∉ q.map UcpPacket.seq) :
    UcpStream.paa_scan s ts q =
      (q.map (fun p => if p.timestamp ≤ ts then
        { p with skip_times := (p.skip_times + 1) % 2^32 } else p), false) := by
  induction q with
  | nil => rfl
  | cons p rest ih =>
    simp only [List.map_cons, List.mem_cons, not_or] at h
    unfold UcpStream.paa_scan
    rw [if_neg (fun he => h.1 he.symm), ih h.2]
    rfl

theorem paa_scan_count (s ts : Nat) (q : List UcpPacket)
    (h : (q.map UcpPacket.seq).count s ≤ 1) :
    ((UcpStream.paa_scan s ts q).1.map UcpPacket.seq).count s = 0 := by
  induction q with
  | nil => rfl
  | cons p rest ih =>
    unfold UcpStream.paa_scan
    by_cases hp : p.seq = s
    · rw [if_pos hp]
      have h' : (rest.map UcpPacket.seq).count s + 1 ≤ 1 := by
        rw [List.map_cons, List.count_cons] at h
        simpa [hp] using h
      have hz : (rest.map UcpPacket.seq).count s = 0 := by omega
      exact hz
    · rw [if_neg hp]
      simp only [List.map_cons, List.count_cons] at h ⊢
      have hskip : (if p.timestamp ≤ ts then
          { p with skip_times := (p.skip_times + 1) % 2^32 } else p).seq = p.seq := by
        split <;> rfl
      rw [hskip]
      have h2 : (rest.map UcpPacket.seq).count s ≤ 1 := by
        by_cases he : p.seq = s
        · exact absurd he hp
        · omega
      rw [ih h2]
      simp [hp]

/-- C3 (amended): an ACK for seq `s` removes a matching packet at most once
(once `s` has at most one occurrence, after one call it has none), and every
call that finds no match returns false and removes nothing — but it is NOT a
no-op: it still halves `rto` toward the new RTT sample and increments
`skip_times` of every remaining packet whose `timestamp ≤ ts`. -/
theorem C3_ack_remove_once (now : Nat) (st : UcpStream) (s ts : Nat) :
    ((st.send_queue.map UcpPacket.seq).count s ≤ 1 →
      (((UcpStream.process_an_ack now st s ts).1.send_queue.map UcpPacket.seq).count s
        = 0)) ∧
    (s ∉ st.send_queue.map UcpPacket.seq →
      ((UcpStream.process_an_ack now st s ts).2 = false ∧
       (UcpStream.process_an_ack now st s ts).1.send_queue
         = st.send_queue.map (fun p => if p.timestamp ≤ ts then
             { p with skip_times := (p.skip_times + 1) % 2^32 } else p) ∧
       (UcpStream.process_an_ack now st s ts).1.rto
         = (st.rto + u32sub now ts) % 2^32 / 2)) := by
  constructor
  · intro h
    exact paa_scan_count s ts st.send_queue h
  · intro h
    have hs := paa_scan_not_found s ts st.send_queue h
    refine ⟨?_, ?_, rfl⟩
    · show (UcpStream.paa_scan s ts st.send_queue).2 = false
      rw [hs]
    · show (UcpStream.paa_scan s ts st.send_queue).1 = _
      rw [hs]

theorem C3_ack_remove_once_witness :
    (((UcpStream.process_an_ack 0 exampleAcked 2 0).1.send_queue.map
        UcpPacket.seq).count 2 = 0) ∧
    (UcpStream.process_an_ack 0 exampleAcked 3 0).2 = false :=
  ⟨(C3_ack_remove_once 0 exampleAcked 2 0).1 (by decide),
   ((C3_ack_remove_once 0 exampleAcked 3 0).2 (by decide)).1⟩

/-- C3 counterexample: after an ACK for seq 2 removes the packet, a second
ACK for the same seq returns false and removes nothing, but it is not a
no-op: `rto` moves from 50 to 25 and the surviving packet's `skip_times`
climbs from 1 to 2. -/
theorem C3_ack_not_noop_counterexample :
    ((UcpStream.process_an_ack 0 exampleAcked 2 0).2 = true) ∧
    ((UcpStream.process_an_ack 0
        (UcpStream.process_an_ack 0 exampleAcked 2 0).1 2 0).2 = false) ∧
    (UcpStream.process_an_ack 0 exampleAcked 2 0).1.rto = 50 ∧
    (UcpStream.process_an_ack 0
        (UcpStream.process_an_ack 0 exampleAcked 2 0).1 2 0).1.rto = 25 ∧
    ((UcpStream.process_an_ack 0 exampleAcked 2 0).1.send_queue.map
        UcpPacket.skip_times = [1]) ∧
    ((UcpStream.process_an_ack 0
        (UcpStream.process_an_ack 0 exampleAcked 2 0).1 2 0).1.send_queue.map
        UcpPacket.skip_times = [2]) ∧
    ¬ ((UcpStream.process_an_ack 0
          (UcpStream.process_an_ack 0 exampleAcked 2 0).1 2 0).1.rto
        = (UcpStream.process_an_ack 0 exampleAcked 2 0).1.rto ∧
       (UcpStream.process_an_ack 0
          (UcpStream.process_an_ack 0 exampleAcked 2 0).1 2 0).1.send_queue.map
          UcpPacket.skip_times
        = (UcpStream.process_an_ack 0 exampleAcked 2 0).1.send_queue.map
          UcpPacket.skip_times) := by
  refine ⟨?_, ?_, ?_, ?_, ?_, ?_, ?_⟩ <;> decide

/-! ## `send` and `make_packet_send` -/

theorem range_map_getD (bs : List Nat) :
    (List.range bs.length).map (fun j => bs.getD j 0 % 256) = bs.map (· % 256) := by
  induction bs with
  | nil => rfl
  | cons b rest ih =>
    rw [List.length_cons, List.range_succ_eq_map, List.map_cons, List.map_map]
    simp only [Function.comp_def, List.getD_cons_zero, List.getD_cons_succ]
    rw [ih, List.map_cons]

theorem join_cons_eq {α : Type} (l : List α) (ls : List (List α)) :
    (l :: ls).join = l ++ ls.join := rfl

theorem payload_write_slice_fields (p : UcpPacket) (bs : List Nat) :
    (p.payload_write_slice bs).1.cmd = p.cmd ∧
    (p.payload_write_slice bs).1.seq = p.seq := by
  unfold UcpPacket.payload_write_slice
  split <;> exact ⟨rfl, rfl⟩

theorem payloadBytes_write_slice (p : UcpPacket) (bs : List Nat)
    (hp : p.payload + bs.length ≤ 1371) :
    (p.payload_write_slice bs).1.payloadBytes
      = p.payloadBytes ++ bs.map (· % 256) := by
  have hrem : bs.length ≤ p.remaining_load := by
    unfold UcpPacket.remaining_load UCP_PACKET_META_SIZE
    omega
  have hpl : (p.payload + bs.length) % 2^16 = p.payload + bs.length :=
    Nat.mod_eq_of_lt (by omega)
  unfold UcpPacket.payload_write_slice
  rw [if_pos hrem]
  show (List.range ((p.payload + bs.length) % 2^16)).map
      (fun k => byteAt (UcpPacket.writeBytes p.buf p.payload_offset bs)
        (UCP_PACKET_META_SIZE + k))
    = p.payloadBytes ++ bs.map (· % 256)
  rw [hpl, List.range_add, List.map_append, List.map_map]
  congr 1
  · unfold UcpPacket.payloadBytes
    simp only [List.map_inj_left, List.mem_range]
    intro k hk
    exact byteAt_writeBytes_of_disjoint _ _ _ _ (Or.inl (by
      unfold UcpPacket.payload_offset UCP_PACKET_META_SIZE
      omega))
  · rw [← range_map_getD bs]
    simp only [List.map_inj_left, List.mem_range, Function.comp_def]
    intro j hj
    rw [byteAt_writeBytes_of_mem _ _ _ _
      (by unfold UcpPacket.payload_offset UCP_PACKET_META_SIZE; omega)
      (by unfold UcpPacket.payload_offset UCP_PACKET_META_SIZE; omega)]
    have he : UCP_PACKET_META_SIZE + (p.payload + j) - p.payload_offset = j := by
      unfold UcpPacket.payload_offset UCP_PACKET_META_SIZE
      omega
    rw [he]

/-- The chunking loop `make_packet_send` appends to `send_buffer` exactly the
fresh DATA packets carrying the input bytes in order, with consecutively
assigned seqs. -/
theorem make_packet_send_spec (now : Nat) (st : UcpStream) (bs : List Nat) :
    ∃ ps : List UcpPacket,
      (st.make_packet_send now bs).send_buffer = st.send_buffer ++ ps ∧
      (∀ p ∈ ps, p.cmd = CMD_DATA) ∧
      (ps.map UcpPacket.payloadBytes).join = bs.map (· % 256) ∧
      ps.map UcpPacket.seq
        = (List.range ps.length).map (fun i => (st.seq + i + 1) % 2^32) := by
  induction st, bs using UcpStream.make_packet_send.induct now with
  | case1 st bs h =>
    rw [List.length_eq_zero] at h
    subst h
    refine ⟨[], ?_, by simp, rfl, rfl⟩
    rw [UcpStream.make_packet_send.eq_def]
    simp
  | case2 st bs h r size p1 ih =>
    simp only [r, size, p1] at ih
    obtain ⟨ps, h1, h2, h3, h4⟩ := ih
    refine ⟨((st.new_packet now CMD_DATA).1.payload_write_slice
      (bs.take (min (st.new_packet now CMD_DATA).1.remaining_load bs.length))).1
        :: ps, ?_, ?_, ?_, ?_⟩
    · rw [UcpStream.make_packet_send.eq_def, if_neg h]
      rw [h1]
      simp [List.append_assoc]
      rfl
    · intro p hp
      rcases List.mem_cons.mp hp with rfl | hp
      · exact (payload_write_slice_fields _ _).1
      · exact h2 p hp
    · have hjoin : (((st.new_packet now CMD_DATA).1.payload_write_slice
          (List.take ((st.new_packet now CMD_DATA).1.remaining_load ⊓ bs.length) bs)).1).payloadBytes
        = (List.take ((st.new_packet now CMD_DATA).1.remaining_load ⊓ bs.length) bs).map (· % 256) := by
        rw [payloadBytes_write_slice _ _ (by
          have hz : (st.new_packet now CMD_DATA).1.payload = 0 := rfl
          have h1371 : (st.new_packet now CMD_DATA).1.remaining_load = 1371 := rfl
          rw [hz, h1371, List.length_take]
          omega)]
        rw [show (st.new_packet now CMD_DATA).1.payloadBytes = [] from rfl, List.nil_append]
      rw [List.map_cons, join_cons_eq, hjoin, h3, ← List.map_append,
        List.take_append_drop]
    · rw [List.map_cons, (payload_write_slice_fields _ _).2,
        show (st.new_packet now CMD_DATA).1.seq = (st.seq + 1) % 2^32 from rfl, h4,
        show (st.new_packet now CMD_DATA).2.seq = (st.seq + 1) % 2^32 from rfl,
        List.length_cons, List.range_succ_eq_map, List.map_cons, List.map_map]
      congr 1
      simp only [List.map_inj_left, List.mem_range, Function.comp_def]
      intro i hi
      omega

theorem send_eq_none (now : Nat) (st : UcpStream) (bs : List Nat)
    (hlast : st.send_buffer.getLast? = none) :
    st.send now bs = if 0 < bs.length then st.make_packet_send now bs else st := by
  unfold UcpStream.send
  rw [hlast]

theorem send_eq_some (now : Nat) (st : UcpStream) (bs : List Nat) (tl : UcpPacket)
    (hlast : st.send_buffer.getLast? = some tl) :
    st.send now bs =
      (if min tl.remaining_load bs.length < bs.length then
        UcpStream.make_packet_send now
          { st with send_buffer := st.send_buffer.dropLast ++
              [if 0 < min tl.remaining_load bs.length then
                 (tl.payload_write_slice (bs.take (min tl.remaining_load bs.length))).1
               else tl] }
          (bs.drop (min tl.remaining_load bs.length))
      else
        { st with send_buffer := st.send_buffer.dropLast ++
            [if 0 < min tl.remaining_load bs.length then
               (tl.payload_write_slice (bs.take (min tl.remaining_load bs.length))).1
             else tl] }) := by
  unfold UcpStream.send
  rw [hlast]

/-- C4 (amended): `send` first fills the current tail packet of `send_buffer`
up to its remaining payload capacity — whatever its `cmd` is, not only a DATA
tail — then chunks the remainder into fresh DATA packets, each assigned the
next value of the seq counter at creation time; the payload bytes appended
across `send_buffer` are exactly the input bytes, in order. -/
theorem C4_send_appends (now : Nat) (st : UcpStream) (bs : List Nat) :
    (st.send_buffer = [] →
      ∃ ps : List UcpPacket,
        (st.send now bs).send_buffer = ps ∧
        (∀ p ∈ ps, p.cmd = CMD_DATA) ∧
        (ps.map UcpPacket.payloadBytes).join = bs.map (· % 256) ∧
        ps.map UcpPacket.seq
          = (List.range ps.length).map (fun i => (st.seq + i + 1) % 2^32)) ∧
    (∀ tl : UcpPacket, st.send_buffer.getLast? = some tl → tl.payload ≤ 1371 →
      ∃ tl' : UcpPacket, ∃ ps : List UcpPacket,
        (st.send now bs).send_buffer = st.send_buffer.dropLast ++ tl' :: ps ∧
        tl'.cmd = tl.cmd ∧
        tl'.payloadBytes = tl.payloadBytes
          ++ (bs.take (min tl.remaining_load bs.length)).map (· % 256) ∧
        (∀ p ∈ ps, p.cmd = CMD_DATA) ∧
        (ps.map UcpPacket.payloadBytes).join
          = (bs.drop (min tl.remaining_load bs.length)).map (· % 256) ∧
        ps.map UcpPacket.seq
          = (List.range ps.length).map (fun i => (st.seq + i + 1) % 2^32)) := by
  constructor
  · intro he
    rw [send_eq_none now st bs (by rw [he]; rfl)]
    by_cases hb : 0 < bs.length
    · rw [if_pos hb]
      obtain ⟨ps, h1, h2, h3, h4⟩ := make_packet_send_spec now st bs
      exact ⟨ps, by rw [h1, he]; rfl, h2, h3, h4⟩
    · rw [if_neg hb]
      have : bs = [] := List.length_eq_zero.mp (by omega)
      subst this
      exact ⟨[], by rw [he], by simp, rfl, rfl⟩
  · intro tl hlast htl
    rw [send_eq_some now st bs tl hlast]
    by_cases h0 : 0 < min tl.remaining_load bs.length
    · have hple : tl.payload + (bs.take (min tl.remaining_load bs.length)).length ≤ 1371 := by
        have hrl : tl.remaining_load = 1371 - tl.payload := by
          unfold UcpPacket.remaining_load UCP_PACKET_META_SIZE
          omega
        rw [List.length_take]
        omega
      by_cases h2 : min tl.remaining_load bs.length < bs.length
      · rw [if_pos h2]
        obtain ⟨ps, h1, hc, hj, hs⟩ := make_packet_send_spec now
          { st with send_buffer := st.send_buffer.dropLast ++
              [if 0 < min tl.remaining_load bs.length then
                 (tl.payload_write_slice (bs.take (min tl.remaining_load bs.length))).1
               else tl] }
          (bs.drop (min tl.remaining_load bs.length))
        refine ⟨(tl.payload_write_slice (bs.take (min tl.remaining_load bs.length))).1,
          ps, ?_, (payload_write_slice_fields _ _).1, ?_, hc, hj, hs⟩
        · rw [h1]
          rw [show ({ st with send_buffer := st.send_buffer.dropLast ++
              [if 0 < min tl.remaining_load bs.length then
                 (tl.payload_write_slice (bs.take (min tl.remaining_load bs.length))).1
               else tl] } : UcpStream).send_buffer
            = st.send_buffer.dropLast ++
              [if 0 < min tl.remaining_load bs.length then
                 (tl.payload_write_slice (bs.take (min tl.remaining_load bs.length))).1
               else tl] from rfl]
          rw [if_pos h0, List.append_assoc]
          rfl
        · exact payloadBytes_write_slice tl _ hple
      · rw [if_neg h2]
        refine ⟨(tl.payload_write_slice (bs.take (min tl.remaining_load bs.length))).1,
          [], ?_, (payload_write_slice_fields _ _).1, ?_, by simp, ?_, rfl⟩
        · rw [show ({ st with send_buffer := st.send_buffer.dropLast ++
              [if 0 < min tl.remaining_load bs.length then
                 (tl.payload_write_slice (bs.take (min tl.remaining_load bs.length))).1
               else tl] } : UcpStream).send_buffer
            = st.send_buffer.dropLast ++
              [if 0 < min tl.remaining_load bs.length then
                 (tl.payload_write_slice (bs.take (min tl.remaining_load bs.length))).1
               else tl] from rfl]
          rw [if_pos h0]
        · exact payloadBytes_write_slice tl _ hple
        · have : bs.drop (min tl.remaining_load bs.length) = [] := by
            rw [List.drop_eq_nil_iff_le]
            omega
          rw [this]
          rfl
    · have hz : min tl.remaining_load bs.length = 0 := by omega
      by_cases h2 : min tl.remaining_load bs.length < bs.length
      · rw [if_pos h2]
        obtain ⟨ps, h1, hc, hj, hs⟩ := make_packet_send_spec now
          { st with send_buffer := st.send_buffer.dropLast ++
              [if 0 < min tl.remaining_load bs.length then
                 (tl.payload_write_slice (bs.take (min tl.remaining_load bs.length))).1
               else tl] }
          (bs.drop (min tl.remaining_load bs.length))
        refine ⟨tl, ps, ?_, rfl, ?_, hc, hj, hs⟩
        · rw [h1]
          rw [show ({ st with send_buffer := st.send_buffer.dropLast ++
              [if 0 < min tl.remaining_load bs.length then
                 (tl.payload_write_slice (bs.take (min tl.remaining_load bs.length))).1
               else tl] } : UcpStream).send_buffer
            = st.send_buffer.dropLast ++
              [if 0 < min tl.remaining_load bs.length then
                 (tl.payload_write_slice (bs.take (min tl.remaining_load bs.length))).1
               else tl] from rfl]
          rw [if_neg h0, List.append_assoc]
          rfl
        · rw [hz]
          simp
      · rw [if_neg h2]
        refine ⟨tl, [], ?_, rfl, ?_, by simp, ?_, rfl⟩
        · rw [show ({ st with send_buffer := st.send_buffer.dropLast ++
              [if 0 < min tl.remaining_load bs.length then
                 (tl.payload_write_slice (bs.take (min tl.remaining_load bs.length))).1
               else tl] } : UcpStream).send_buffer
            = st.send_buffer.dropLast ++
              [if 0 < min tl.remaining_load bs.length then
                 (tl.payload_write_slice (bs.take (min tl.remaining_load bs.length))).1
               else tl] from rfl]
          rw [if_neg h0]
        · rw [hz]
          simp
        · have : bs.drop (min tl.remaining_load bs.length) = [] := by
            rw [List.drop_eq_nil_iff_le]
            omega
          rw [this]
          rfl

theorem C4_send_appends_witness :
    ∃ tl' : UcpPacket, ∃ ps : List UcpPacket,
      (exampleSynStaged.send 0 [7]).send_buffer
        = exampleSynStaged.send_buffer.dropLast ++ tl' :: ps ∧
      tl'.cmd = exampleSyn.cmd ∧
      tl'.payloadBytes = exampleSyn.payloadBytes
        ++ (([7] : List Nat).take (min exampleSyn.remaining_load
            ([7] : List Nat).length)).map (· % 256) ∧
      (∀ p ∈ ps, p.cmd = CMD_DATA) ∧
      (ps.map UcpPacket.payloadBytes).join
        = (([7] : List Nat).drop (min exampleSyn.remaining_load
            ([7] : List Nat).length)).map (· % 256) ∧
      ps.map UcpPacket.seq
        = (List.range ps.length).map (fun i => (exampleSynStaged.seq + i + 1) % 2^32) :=
  (C4_send_appends 0 exampleSynStaged [7]).2 exampleSyn rfl (by decide)

/-- C4 counterexample: with the handshake SYN still staged as the tail of
`send_buffer`, `send [7]` writes the application byte into the SYN packet
(cmd 128), not into a DATA packet, and creates no DATA packet at all —
refuting "bytes are appended only to a tail DATA packet". -/
theorem C4_fills_non_data_tail_counterexample :
    ((exampleSynStaged.send 0 [7]).send_buffer.map
        (fun p => (p.cmd, p.payloadBytes)) = [(128, [7])]) ∧
    (exampleSynStaged.send_buffer.map (fun p => (p.cmd, p.payloadBytes))
      = [(128, [])]) ∧
    (128 : Nat) ≠ CMD_DATA := by
  refine ⟨?_, ?_, ?_⟩ <;> decide

end Ucp
